import Mathlib

set_option maxRecDepth 100000
set_option maxHeartbeats 2000000

/-!
Verification of the meeting-scheduler core (database layer and the two
Streamlit page layers) against its natural-language specification.

The Python source is shallowly embedded: SQLite tables become Lean lists of
records, SQL statements become list operations (UPDATE = map, DELETE =
filter, SELECT ... fetchone = find-first, ORDER BY = sort), `datetime.now()`
and `uuid4()` become explicit environment inputs, and the process's ambient
entropy pool (never read by the code) is threaded as an explicit, unused
parameter so that statements about randomness are expressible.  `hashlib`'s
SHA-256 is implemented in full below, since token generation truncates a
SHA-256 hex digest.
-/

namespace Scheduler

/-! ### SHA-256 (model of Python `hashlib.sha256(...).hexdigest()`) -/

/-- Truncate to a 32-bit word. -/
def w32 (x : Nat) : Nat := x % 4294967296

/-- 32-bit rotate right. -/
def rotr32 (n x : Nat) : Nat := w32 ((x >>> n) ||| (x <<< (32 - n)))

def sigmaBig0 (x : Nat) : Nat := rotr32 2 x ^^^ rotr32 13 x ^^^ rotr32 22 x
def sigmaBig1 (x : Nat) : Nat := rotr32 6 x ^^^ rotr32 11 x ^^^ rotr32 25 x
def sigmaSmall0 (x : Nat) : Nat := rotr32 7 x ^^^ rotr32 18 x ^^^ (x >>> 3)
def sigmaSmall1 (x : Nat) : Nat := rotr32 17 x ^^^ rotr32 19 x ^^^ (x >>> 10)
def chF (x y z : Nat) : Nat := (x &&& y) ^^^ ((x ^^^ 4294967295) &&& z)
def majF (x y z : Nat) : Nat := (x &&& y) ^^^ (x &&& z) ^^^ (y &&& z)

/-- The 64 SHA-256 round constants (FIPS 180-4, written in decimal). -/
def shaK : List Nat :=
  [1116352408, 1899447441, 3049323471, 3921009573, 961987163,
   1508970993, 2453635748, 2870763221, 3624381080, 310598401,
   607225278, 1426881987, 1925078388, 2162078206, 2614888103,
   3248222580, 3835390401, 4022224774, 264347078, 604807628,
   770255983, 1249150122, 1555081692, 1996064986, 2554220882,
   2821834349, 2952996808, 3210313671, 3336571891, 3584528711,
   113926993, 338241895, 666307205, 773529912, 1294757372,
   1396182291, 1695183700, 1986661051, 2177026350, 2456956037,
   2730485921, 2820302411, 3259730800, 3345764771, 3516065817,
   3600352804, 4094571909, 275423344, 430227734, 506948616,
   659060556, 883997877, 958139571, 1322822218, 1537002063,
   1747873779, 1955562222, 2024104815, 2227730452, 2361852424,
   2428436474, 2756734187, 3204031479, 3329325298]

/-- The initial SHA-256 hash state (FIPS 180-4, written in decimal). -/
def shaH0 : List Nat :=
  [1779033703, 3144134277, 1013904242, 2773480762, 1359893119,
   2600822924, 528734635, 1541459225]

/-- One message-schedule extension step: append word t from words t-2, t-7,
t-15, t-16. -/
def extendStep (ws : List Nat) : List Nat :=
  let n := ws.length
  ws ++ [w32 (sigmaSmall1 (ws.getD (n - 2) 0) + ws.getD (n - 7) 0 +
              sigmaSmall0 (ws.getD (n - 15) 0) + ws.getD (n - 16) 0)]

/-- Extend a 16-word block to the 64-word message schedule. -/
def msgSchedule (block : List Nat) : List Nat :=
  (List.range 48).foldl (fun ws _ => extendStep ws) block

/-- One compression round on the 8-word working state. -/
def roundFn (st : List Nat) (k w : Nat) : List Nat :=
  match st with
  | [a, b, c, d, e, f, g, h] =>
    let t1 := w32 (h + sigmaBig1 e + chF e f g + k + w)
    let t2 := w32 (sigmaBig0 a + majF a b c)
    [w32 (t1 + t2), a, b, c, w32 (d + t1), e, f, g]
  | other => other

/-- Compress one 16-word block into the running hash. -/
def compressBlock (h : List Nat) (block : List Nat) : List Nat :=
  let ws := msgSchedule block
  let st := (shaK.zip ws).foldl (fun st kw => roundFn st kw.1 kw.2) h
  (h.zip st).map (fun p => w32 (p.1 + p.2))

/-- Big-endian byte rendering of `n` in `k` bytes. -/
def beBytes (k n : Nat) : List Nat :=
  (List.range k).map (fun i => (n >>> (8 * (k - 1 - i))) % 256)

/-- SHA-256 padding: 0x80, zeros to 56 mod 64, then the 8-byte bit length. -/
def padBytes (msg : List Nat) : List Nat :=
  msg ++ [0x80] ++ List.replicate ((119 - msg.length % 64) % 64) 0 ++
    beBytes 8 (msg.length * 8)

/-- Group bytes into big-endian 32-bit words. -/
def bytesToWords : List Nat → List Nat
  | b0 :: b1 :: b2 :: b3 :: rest =>
      (((b0 * 256 + b1) * 256 + b2) * 256 + b3) :: bytesToWords rest
  | _ => []

/-- Group a word list into 16-word blocks. -/
def chunkWords16 : List Nat → List (List Nat)
  | w0 :: w1 :: w2 :: w3 :: w4 :: w5 :: w6 :: w7 ::
    w8 :: w9 :: w10 :: w11 :: w12 :: w13 :: w14 :: w15 :: rest =>
      [w0, w1, w2, w3, w4, w5, w6, w7, w8, w9, w10, w11, w12, w13, w14, w15]
        :: chunkWords16 rest
  | _ => []

/-- SHA-256 of a byte list, as the final eight 32-bit words. -/
def sha256Words (msg : List Nat) : List Nat :=
  (chunkWords16 (bytesToWords (padBytes msg))).foldl compressBlock shaH0

def hexChar (n : Nat) : Char :=
  if n < 10 then Char.ofNat (48 + n) else Char.ofNat (87 + n)

def hexOfWord (w : Nat) : String :=
  String.mk ((List.range 8).map (fun i => hexChar ((w >>> (4 * (7 - i))) % 16)))

/-- Lowercase hex digest of a byte list: Python
`hashlib.sha256(data).hexdigest()`. -/
def sha256hex (msg : List Nat) : String :=
  String.join ((sha256Words msg).map hexOfWord)

/-- UTF-8 encoding of one character, as Python `str.encode()` produces. -/
def utf8Bytes (c : Char) : List Nat :=
  let n := c.toNat
  if n < 128 then [n]
  else if n < 2048 then [192 + n / 64, 128 + n % 64]
  else if n < 65536 then [224 + n / 4096, 128 + (n / 64) % 64, 128 + n % 64]
  else [240 + n / 262144, 128 + (n / 4096) % 64, 128 + (n / 64) % 64,
        128 + n % 64]

/-- UTF-8 bytes of a string. -/
def strBytes (s : String) : List Nat := (s.data.map utf8Bytes).flatten

/-! ### Data model (`database.py` schema)

Each SQLite table becomes a list of records, in insertion order, as a row
cursor without an ORDER BY would surface them. -/

/-- Row of the `meetings` table. -/
structure Meeting where
  id : String
  title : String
  description : String
  organizer_email : String
  status : String
  finalized_slot : Option String
  deriving DecidableEq, Repr

/-- Row of the `time_slots` table. -/
structure TimeSlot where
  id : String
  meeting_id : String
  slot_datetime : String
  duration_minutes : Nat
  deriving DecidableEq, Repr

/-- Row of the `responses` table. -/
structure ResponseRow where
  id : String
  meeting_id : String
  contact_id : String
  slot_id : String
  availability : String
  created_at : String
  deriving DecidableEq, Repr

/-- Row of the `meeting_participants` table. -/
structure ParticipantRow where
  meeting_id : String
  contact_id : String
  token : String
  responded : Bool
  responded_at : Option String
  deriving DecidableEq, Repr

/-- Row of the `contacts` table. -/
structure ContactRow where
  id : String
  owner_email : String
  name : String
  email : String
  deriving DecidableEq, Repr

/-- Row of the `contact_groups` table. -/
structure GroupRow where
  id : String
  owner_email : String
  name : String
  description : String
  is_shared : Bool
  deriving DecidableEq, Repr

/-- Row of the `shared_groups` table. -/
structure SharedGroupRow where
  group_id : String
  shared_with_email : String
  deriving DecidableEq, Repr

/-- Row of the `suggested_slots` table. -/
structure SuggestedRow where
  id : String
  meeting_id : String
  contact_id : String
  suggested_datetime : String
  note : Option String
  deriving DecidableEq, Repr

/-- The whole SQLite database. -/
structure DB where
  meetings : List Meeting
  time_slots : List TimeSlot
  responses : List ResponseRow
  meeting_participants : List ParticipantRow
  contacts : List ContactRow
  contact_groups : List GroupRow
  group_members : List (String × String)
  shared_groups : List SharedGroupRow
  suggested_slots : List SuggestedRow
  deriving DecidableEq, Repr

/-- Inputs the Python process reads from its environment on one call:
`datetime.now().isoformat()`, the next `uuid.uuid4()` value, and the
operating system's entropy pool.  The scheduler never reads `entropy`; it is
threaded explicitly so that independence from randomness is a statable
property. -/
structure Env where
  now : String
  fresh_id : String
  entropy : List Nat
  deriving DecidableEq, Repr

/-- Python truthiness of an optional string argument (`if finalized_slot:`):
`None` and the empty string are falsy. -/
def strTruthy : Option String → Bool
  | none => false
  | some s => !(s == "")

/-! ### `database.py` operations -/

/-- `update_meeting_status(meeting_id, status, finalized_slot=None)`: if the
`finalized_slot` argument is truthy, `UPDATE meetings SET status = ?,
finalized_slot = ? WHERE id = ?`; otherwise only the status column is set. -/
def update_meeting_status (st : DB) (meeting_id status : String)
    (finalized_slot : Option String := none) : DB :=
  { st with meetings := st.meetings.map (fun m =>
      if m.id == meeting_id then
        if strTruthy finalized_slot then
          { m with status := status, finalized_slot := finalized_slot }
        else
          { m with status := status }
      else m) }

/-- `get_meeting_by_id`: `SELECT * FROM meetings WHERE id = ?`, first row. -/
def get_meeting_by_id (st : DB) (meeting_id : String) : Option Meeting :=
  st.meetings.find? (fun m => m.id == meeting_id)

/-- SQLite's ordering of TEXT values: lexicographic byte/code-point
comparison (`memcmp`), here on the code points of the two strings. -/
def strLtB : List Char → List Char → Bool
  | [], [] => false
  | [], _ :: _ => true
  | _ :: _, [] => false
  | a :: as, b :: bs =>
    if a.toNat < b.toNat then true
    else if b.toNat < a.toNat then false
    else strLtB as bs

/-- Non-strict SQLite TEXT ordering. -/
def strLeB (a b : String) : Bool := !(strLtB b.data a.data)

/-- Stable ordered insertion with respect to a boolean comparison. -/
def orderedInsertBy (le : α → α → Bool) (x : α) : List α → List α
  | [] => [x]
  | y :: ys => if le x y then x :: y :: ys else y :: orderedInsertBy le x ys

/-- Insertion sort with respect to a boolean comparison: the model of an
SQL `ORDER BY` over the filtered rows. -/
def insertionSortBy (le : α → α → Bool) : List α → List α
  | [] => []
  | x :: xs => orderedInsertBy le x (insertionSortBy le xs)

/-- The `ORDER BY slot_datetime` comparison between two slot rows. -/
def slotLeB (a b : TimeSlot) : Bool :=
  strLeB a.slot_datetime b.slot_datetime

/-- `get_meeting_slots`: `SELECT * FROM time_slots WHERE meeting_id = ?
ORDER BY slot_datetime`. -/
def get_meeting_slots (st : DB) (meeting_id : String) : List TimeSlot :=
  insertionSortBy slotLeB
    (st.time_slots.filter (fun s => s.meeting_id == meeting_id))

/-- `add_time_slot`: insert a fresh row into `time_slots`. -/
def add_time_slot (st : DB) (meeting_id slot_datetime : String)
    (duration_minutes : Nat) (slot_id : String) : DB :=
  { st with time_slots := st.time_slots ++
      [{ id := slot_id, meeting_id := meeting_id,
         slot_datetime := slot_datetime,
         duration_minutes := duration_minutes }] }

/-- `delete_time_slot(slot_id)`: `DELETE FROM responses WHERE slot_id = ?`
then `DELETE FROM time_slots WHERE id = ?`, one transaction. -/
def delete_time_slot (st : DB) (slot_id : String) : DB :=
  { st with
      responses := st.responses.filter (fun r => !(r.slot_id == slot_id)),
      time_slots := st.time_slots.filter (fun s => !(s.id == slot_id)) }

/-- `get_responses_for_meeting`: `SELECT ... FROM responses r ... WHERE
r.meeting_id = ?` (the joined contact columns are irrelevant here). -/
def get_responses_for_meeting (st : DB) (meeting_id : String) :
    List ResponseRow :=
  st.responses.filter (fun r => r.meeting_id == meeting_id)

/-- The WHERE clause `meeting_id = ? AND contact_id = ? AND slot_id = ?`
that keys a response row. -/
def respKey (meeting_id contact_id slot_id : String)
    (r : ResponseRow) : Bool :=
  r.meeting_id == meeting_id && r.contact_id == contact_id &&
  r.slot_id == slot_id

/-- `save_response(meeting_id, contact_id, slot_id, availability)`: select
the first existing row for the key; if present, `UPDATE responses SET
availability = ?, created_at = ? WHERE id = ?`; otherwise insert a fresh
row. -/
def save_response (env : Env) (st : DB)
    (meeting_id contact_id slot_id availability : String) : DB :=
  let existing := st.responses.find? (respKey meeting_id contact_id slot_id)
  match existing with
  | some r =>
      { st with responses := st.responses.map (fun q =>
          if q.id == r.id then
            { q with availability := availability, created_at := env.now }
          else q) }
  | none =>
      { st with responses := st.responses ++
          [{ id := env.fresh_id, meeting_id := meeting_id,
             contact_id := contact_id, slot_id := slot_id,
             availability := availability, created_at := env.now }] }

/-- The exceptions the embedded Python can raise. -/
inductive PyErr where
  /-- `TypeError`, e.g. an unexpected keyword argument, or subscripting
  `None`. -/
  | typeError
  deriving DecidableEq, Repr

/-- Token computed by `add_meeting_participant`: the SHA-256 hex digest of
the f-string interpolating meeting_id, contact_id and
`datetime.now().isoformat()` around colons, truncated to 32 characters. -/
def make_token (meeting_id contact_id now : String) : String :=
  (sha256hex (strBytes (meeting_id ++ ":" ++ contact_id ++ ":" ++ now))).take 32

/-- `add_meeting_participant(meeting_id, contact_id)`: compute the token
from the ids and the clock, attempt the INSERT (which hits
`IntegrityError` on a (meeting, contact) primary-key conflict or a token
UNIQUE conflict), and on conflict return the token already stored for the
pair; `fetchone()['token']` on a missing row is a `TypeError`. -/
def add_meeting_participant (env : Env) (st : DB)
    (meeting_id contact_id : String) : Except PyErr (DB × String) :=
  let token := make_token meeting_id contact_id env.now
  let pkConflict := st.meeting_participants.any (fun p =>
    p.meeting_id == meeting_id && p.contact_id == contact_id)
  let tokenConflict := st.meeting_participants.any (fun p =>
    p.token == token)
  if pkConflict || tokenConflict then
    match st.meeting_participants.find? (fun p =>
        p.meeting_id == meeting_id && p.contact_id == contact_id) with
    | some p => .ok (st, p.token)
    | none => .error .typeError
  else
    .ok ({ st with meeting_participants := st.meeting_participants ++
            [{ meeting_id := meeting_id, contact_id := contact_id,
               token := token, responded := false,
               responded_at := none }] }, token)

/-- The (meeting, contact) pair a token resolves to, as the join in
`get_participant_by_token` computes it from `meeting_participants`. -/
def resolve_token (st : DB) (token : String) : Option (String × String) :=
  (st.meeting_participants.find? (fun p => p.token == token)).map
    (fun p => (p.meeting_id, p.contact_id))

/-- `mark_participant_responded`: `UPDATE meeting_participants SET
responded = 1, responded_at = ? WHERE meeting_id = ? AND contact_id = ?`. -/
def mark_participant_responded (env : Env) (st : DB)
    (meeting_id contact_id : String) : DB :=
  { st with meeting_participants := st.meeting_participants.map (fun p =>
      if p.meeting_id == meeting_id && p.contact_id == contact_id then
        { p with responded := true, responded_at := some env.now }
      else p) }

/-- `add_suggested_slot(meeting_id, contact_id, suggested_datetime, note)`:
delete the participant's previous suggestion, then insert the new one. -/
def add_suggested_slot (env : Env) (st : DB)
    (meeting_id contact_id suggested_datetime : String)
    (note : Option String) : DB :=
  { st with suggested_slots :=
      st.suggested_slots.filter (fun s =>
        !(s.meeting_id == meeting_id && s.contact_id == contact_id)) ++
      [{ id := env.fresh_id, meeting_id := meeting_id,
         contact_id := contact_id, suggested_datetime := suggested_datetime,
         note := note }] }

/-- `update_group(group_id, name, description)`: unconditional UPDATE by
group id; no ownership check at this layer. -/
def update_group (st : DB) (group_id name description : String) : DB :=
  { st with contact_groups := st.contact_groups.map (fun g =>
      if g.id == group_id then
        { g with name := name, description := description }
      else g) }

/-- `delete_group(group_id)`: remove memberships, shares, then the group. -/
def delete_group (st : DB) (group_id : String) : DB :=
  { st with
      group_members := st.group_members.filter (fun gm => !(gm.1 == group_id)),
      shared_groups :=
        st.shared_groups.filter (fun sg => !(sg.group_id == group_id)),
      contact_groups :=
        st.contact_groups.filter (fun g => !(g.id == group_id)) }

/-- `add_contact_to_group(contact_id, group_id)`: INSERT, failing silently
on a duplicate-membership IntegrityError. -/
def add_contact_to_group (st : DB) (contact_id group_id : String) : DB :=
  if st.group_members.any (fun gm => gm.1 == group_id && gm.2 == contact_id)
  then st
  else { st with group_members := st.group_members ++ [(group_id, contact_id)] }

/-- `remove_contact_from_group(contact_id, group_id)`. -/
def remove_contact_from_group (st : DB) (contact_id group_id : String) : DB :=
  { st with group_members := st.group_members.filter (fun gm =>
      !(gm.1 == group_id && gm.2 == contact_id)) }

/-- A group as surfaced by `get_groups_by_owner`, tagged with its access
kind (`'owned'` or `'shared'`). -/
structure TaggedGroup where
  group : GroupRow
  access_type : String
  deriving DecidableEq, Repr

/-- The `ORDER BY name` comparison between two tagged groups. -/
def groupNameLeB (a b : TaggedGroup) : Bool :=
  strLeB a.group.name b.group.name

/-- `get_groups_by_owner(owner_email, include_shared=True)`: groups owned by
the organizer tagged `'owned'`, followed by groups shared with the organizer
(join with `shared_groups`, requiring `is_shared = 1`) tagged `'shared'`;
each part ordered by name. -/
def get_groups_by_owner (st : DB) (owner_email : String) : List TaggedGroup :=
  let owned := insertionSortBy groupNameLeB
    ((st.contact_groups.filter (fun g => g.owner_email == owner_email)).map
      (fun g => ({ group := g, access_type := "owned" } : TaggedGroup)))
  let shared := insertionSortBy groupNameLeB
    ((st.contact_groups.filter (fun g =>
        g.is_shared && st.shared_groups.any (fun sg =>
          sg.group_id == g.id && sg.shared_with_email == owner_email))).map
      (fun g => ({ group := g, access_type := "shared" } : TaggedGroup)))
  owned ++ shared

/-- `set_group_shared(group_id, is_shared)`; unsharing cascades deletion of
all share grants. -/
def set_group_shared (st : DB) (group_id : String) (is_shared : Bool) : DB :=
  let st1 : DB := { st with contact_groups := st.contact_groups.map (fun g =>
      if g.id == group_id then { g with is_shared := is_shared } else g) }
  if is_shared then st1
  else { st1 with shared_groups :=
      st1.shared_groups.filter (fun sg => !(sg.group_id == group_id)) }

/-- `share_group_with(group_id, shared_with_email)`: mark the group shared
and insert the grant (duplicate grants hit the IntegrityError branch). -/
def share_group_with (st : DB) (group_id shared_with_email : String) : DB :=
  let st1 : DB := { st with contact_groups := st.contact_groups.map (fun g =>
      if g.id == group_id then { g with is_shared := true } else g) }
  if st1.shared_groups.any (fun sg =>
      sg.group_id == group_id && sg.shared_with_email == shared_with_email)
  then st1
  else { st1 with shared_groups := st1.shared_groups ++
      [{ group_id := group_id, shared_with_email := shared_with_email }] }

/-- `unshare_group_with(group_id, shared_with_email)`. -/
def unshare_group_with (st : DB) (group_id shared_with_email : String) : DB :=
  { st with shared_groups := st.shared_groups.filter (fun sg =>
      !(sg.group_id == group_id && sg.shared_with_email == shared_with_email)) }

/-! ### Slot scoring and ranking (`render_response_view` in
`pages_organizer.py`) -/

/-- One entry of the `slot_scores` list built in `render_response_view`:
per-slot available/maybe counts and the score `available + maybe * 0.5`
(held as the exact rational `(2 * available + maybe) / 2`, the value the
float arithmetic produces for these integer counts).
The source slot's `slot_datetime` is carried for specification purposes
(the displayed `slot_str` is a rendering of it). -/
structure SlotScore where
  slot_id : String
  slot_datetime : String
  available : Nat
  maybe : Nat
  score : ℚ
  deriving DecidableEq, Repr

/-- The `slot_scores` list exactly as `render_response_view` builds it:
one entry per slot of the meeting (slots in `slot_datetime` order, as
`get_meeting_slots` returns them), counting this meeting's responses with
matching `slot_id`. -/
def slot_scores_of (st : DB) (meeting_id : String) : List SlotScore :=
  let responses := get_responses_for_meeting st meeting_id
  (get_meeting_slots st meeting_id).map (fun s =>
    let a := (responses.filter (fun r =>
      r.slot_id == s.id && r.availability == "available")).length
    let m := (responses.filter (fun r =>
      r.slot_id == s.id && r.availability == "maybe")).length
    { slot_id := s.id, slot_datetime := s.slot_datetime,
      available := a, maybe := m,
      score := mkRat (2 * a + m) 2 })

/-- Stable insertion of one element into a list already sorted by
descending score: the new element goes after every element of score ≥ its
own, exactly as Python's stable `list.sort(key=..., reverse=True)` orders
equal keys. -/
def insertDesc (x : SlotScore) : List SlotScore → List SlotScore
  | [] => [x]
  | y :: ys => if y.score < x.score then x :: y :: ys else y :: insertDesc x ys

/-- Stable sort by descending score, processing elements in list order:
the model of `slot_scores.sort(key=lambda x: x['score'], reverse=True)`. -/
def sortScoresDesc (l : List SlotScore) : List SlotScore :=
  l.foldl (fun acc x => insertDesc x acc) []

/-- The ranked slot list of `render_response_view`: `slot_scores` sorted by
score descending with Python's stable sort. -/
def rank_slots (st : DB) (meeting_id : String) : List SlotScore :=
  sortScoresDesc (slot_scores_of st meeting_id)

/-! ### Organizer actions (`pages_organizer.py`) -/

/-- Modelled from the spec: the "human-readable rendering of the slot's
start time" that the finalize handler produces with Python's
`datetime.strftime('%A, %B %d, %Y at %I:%M %p')` (standard-library
formatting, outside `src/`).  The format string contains the literal text
`at`, so the rendering is never the empty string; that non-emptiness is the
only property of the rendering the program depends on (the truthiness test
in `update_meeting_status`). -/
def render_slot_time (slot_datetime : String) : String :=
  "at " ++ slot_datetime

/-- A meeting is selectable in the response view when it belongs to the
acting organizer and its status is not `'cancelled'` (the view filters
`active_meetings = [m for m in meetings if m['status'] != 'cancelled']`). -/
def meeting_selectable (st : DB) (organizer meeting_id : String) : Bool :=
  st.meetings.any (fun m =>
    m.id == meeting_id && m.organizer_email == organizer &&
    !(m.status == "cancelled"))

/-- The state-mutating operations reachable in the application's pages,
plus the ones of the meeting-creation flow. -/
inductive Op where
  /-- The `Cancel Meeting` button of the response view. -/
  | orgCancel (organizer meeting_id : String)
  /-- The `Finalize This Slot` button of the response view. -/
  | orgFinalize (organizer meeting_id slot_id : String)
  /-- The create-meeting handler's `create_meeting` followed by its final
  `update_meeting_status(meeting_id, 'sent')`: the fresh meeting lands in
  status `'sent'` with `finalized_slot` NULL; a duplicate primary key makes
  the INSERT fail. -/
  | createSend (meeting_id title description organizer : String)
  /-- `add_time_slot` from the create-meeting handler. -/
  | addSlot (meeting_id slot_datetime : String) (duration : Nat)
  /-- `add_meeting_participant` from the create-meeting handler. -/
  | addParticipant (meeting_id contact_id : String)
  /-- `save_response` (the response collector). -/
  | saveResp (meeting_id contact_id slot_id availability : String)
  /-- `delete_time_slot`. -/
  | delSlot (slot_id : String)
  /-- `add_suggested_slot`. -/
  | suggest (meeting_id contact_id suggested_datetime : String)
      (note : Option String)
  /-- `mark_participant_responded`. -/
  | markResponded (meeting_id contact_id : String)
  deriving DecidableEq, Repr

/-- One application step.  `none` means the operation is not reachable in
the page (unselectable meeting, missing slot, no responses yet) or the
Python call died on an uncaught exception before committing. -/
def step (env : Env) (st : DB) : Op → Option DB
  | .orgCancel o mid =>
      if meeting_selectable st o mid then
        some (update_meeting_status st mid "cancelled")
      else none
  | .orgFinalize o mid sid =>
      if meeting_selectable st o mid then
        -- `slot_scores` is non-empty only under `if responses and slots:`
        if (get_responses_for_meeting st mid).isEmpty ||
           (get_meeting_slots st mid).isEmpty then none
        else
          match (get_meeting_slots st mid).find? (fun s => s.id == sid) with
          | some s => some (update_meeting_status st mid "finalized"
              (some (render_slot_time s.slot_datetime)))
          | none => none
      else none
  | .createSend mid title descr o =>
      if st.meetings.any (fun m => m.id == mid) then none
      else some (update_meeting_status
        { st with meetings := st.meetings ++
            [{ id := mid, title := title, description := descr,
               organizer_email := o, status := "draft",
               finalized_slot := none }] } mid "sent")
  | .addSlot mid dt dur => some (add_time_slot st mid dt dur env.fresh_id)
  | .addParticipant mid cid =>
      match add_meeting_participant env st mid cid with
      | .ok (st', _) => some st'
      | .error _ => none
  | .saveResp mid cid sid av => some (save_response env st mid cid sid av)
  | .delSlot sid => some (delete_time_slot st sid)
  | .suggest mid cid dt note => some (add_suggested_slot env st mid cid dt note)
  | .markResponded mid cid => some (mark_participant_responded env st mid cid)

/-- Run a list of (environment, operation) pairs in order; any unreachable
or crashing step aborts the run. -/
def runOps : List (Env × Op) → DB → Option DB
  | [], st => some st
  | (e, op) :: rest, st =>
      match step e st op with
      | some st' => runOps rest st'
      | none => none

/-! ### Group management page (`render_group_management`) -/

/-- Whether the group-management page offers any mutation control for this
group to this organizer: controls are rendered only under
`if not is_shared_group:`, i.e. only when the group appears in the
organizer's listing tagged `'owned'`. -/
def group_mutation_allowed (st : DB) (organizer group_id : String) : Bool :=
  (get_groups_by_owner st organizer).any (fun tg =>
    tg.group.id == group_id && tg.access_type == "owned")

/-- The group mutations the management page can dispatch. -/
inductive GroupOp where
  | rename (name description : String)
  | addMember (contact_id : String)
  | removeMember (contact_id : String)
  | del
  | setShared (b : Bool)
  | share (email : String)
  | unshare (email : String)
  deriving DecidableEq, Repr

/-- A group mutation as dispatched from the management page on behalf of an
organizer: performed only when the page renders the control, i.e. only for
groups the organizer's listing tags `'owned'`. -/
def org_group_step (st : DB) (organizer group_id : String) :
    GroupOp → Option DB := fun op =>
  if group_mutation_allowed st organizer group_id then
    some (match op with
      | .rename n d => update_group st group_id n d
      | .addMember c => add_contact_to_group st c group_id
      | .removeMember c => remove_contact_from_group st c group_id
      | .del => delete_group st group_id
      | .setShared b => set_group_shared st group_id b
      | .share e => share_group_with st group_id e
      | .unshare e => unshare_group_with st group_id e)
  else none

/-! ### Participant submit flow (`render_participant_page`) with Python
keyword-argument semantics -/

/-- A Python call with keyword arguments binds only if every supplied
keyword is a declared parameter name; otherwise the callee raises
`TypeError: got an unexpected keyword argument` before its body runs. -/
def kwargsAccepted (declared supplied : List String) : Bool :=
  supplied.all (fun k => declared.contains k)

/-- The declared parameter names of `database.save_response`. -/
def save_response_py_params : List String :=
  ["meeting_id", "contact_id", "slot_id", "availability"]

/-- The declared parameter names of `database.add_suggested_slot`. -/
def add_suggested_slot_py_params : List String :=
  ["meeting_id", "contact_id", "suggested_datetime", "note"]

/-- The keyword names the participant submit handler passes to
`save_response`. -/
def submit_save_response_kwargs : List String :=
  ["meeting_id", "participant_id", "slot_id", "availability"]

/-- The keyword names the participant submit handler passes to
`add_suggested_slot`. -/
def submit_add_suggested_kwargs : List String :=
  ["meeting_id", "participant_id", "suggested_datetime", "note"]

/-- Keyword-checked call of `save_response`. -/
def call_save_response (env : Env) (st : DB) (supplied : List String)
    (meeting_id contact_id slot_id availability : String) :
    Except PyErr DB :=
  if kwargsAccepted save_response_py_params supplied then
    .ok (save_response env st meeting_id contact_id slot_id availability)
  else .error .typeError

/-- Keyword-checked call of `add_suggested_slot`. -/
def call_add_suggested_slot (env : Env) (st : DB) (supplied : List String)
    (meeting_id contact_id suggested_datetime : String)
    (note : Option String) : Except PyErr DB :=
  if kwargsAccepted add_suggested_slot_py_params supplied then
    .ok (add_suggested_slot env st meeting_id contact_id suggested_datetime
      note)
  else .error .typeError

/-- The submit handler's `for slot in slots:` loop; an exception aborts the
loop, leaving the state as of the committed calls so far. -/
def submit_slots (env : Env) (meeting_id participant_id : String)
    (sel : String → String) :
    DB → List TimeSlot → DB × Option PyErr
  | st, [] => (st, none)
  | st, slot :: rest =>
      match call_save_response env st submit_save_response_kwargs
          meeting_id participant_id slot.id (sel slot.id) with
      | .ok st' => submit_slots env meeting_id participant_id sel st' rest
      | .error e => (st, some e)

/-- The whole submit-button handler of `render_participant_page`: save a
response for every slot of the meeting (the availability selection `sel`,
defaulting to `'unavailable'`, is already applied by the caller), then the
optional alternative-slot suggestion, then `mark_participant_responded`.
The returned state is the database after the calls that committed before
any exception. -/
def render_participant_submit (env : Env) (st : DB)
    (meeting_id participant_id : String) (sel : String → String)
    (alt : Option (String × Option String)) : DB × Option PyErr :=
  let slots := get_meeting_slots st meeting_id
  match submit_slots env meeting_id participant_id sel st slots with
  | (st1, some e) => (st1, some e)
  | (st1, none) =>
    match alt with
    | some (dt, note) =>
        match call_add_suggested_slot env st1 submit_add_suggested_kwargs
            meeting_id participant_id dt note with
        | .ok st2 =>
            (mark_participant_responded env st2 meeting_id participant_id,
             none)
        | .error e => (st1, some e)
    | none =>
        (mark_participant_responded env st1 meeting_id participant_id, none)

/-! ### Derived observations used in specification statements -/

/-- Number of response rows carrying a given (meeting, contact, slot) key. -/
def countKey (st : DB) (meeting_id contact_id slot_id : String) : Nat :=
  (st.responses.filter (respKey meeting_id contact_id slot_id)).length

/-- All response rows referencing one slot. -/
def responses_for_slot (st : DB) (slot_id : String) : List ResponseRow :=
  st.responses.filter (fun r => r.slot_id == slot_id)

/-- `available` count for one slot of a meeting, as the response view
computes it. -/
def count_avail (st : DB) (meeting_id slot_id : String) : Nat :=
  ((get_responses_for_meeting st meeting_id).filter (fun r =>
    r.slot_id == slot_id && r.availability == "available")).length

/-- `maybe` count for one slot of a meeting, as the response view computes
it. -/
def count_maybe (st : DB) (meeting_id slot_id : String) : Nat :=
  ((get_responses_for_meeting st meeting_id).filter (fun r =>
    r.slot_id == slot_id && r.availability == "maybe")).length

/-- The finalized-slot bookkeeping the data model actually maintains:
a `finalized` meeting always carries a finalized slot, and a meeting
carrying one is `finalized` or was finalized and then `cancelled`. -/
def MeetingInv (st : DB) : Prop :=
  ∀ m ∈ st.meetings,
    (m.status = "finalized" → m.finalized_slot ≠ none) ∧
    (m.finalized_slot ≠ none →
      m.status = "finalized" ∨ m.status = "cancelled")

/-- The ranking order: score descending, and at equal scores the slot with
the earlier start (in SQLite TEXT order) first. -/
def scoreDescTieByStart (a b : SlotScore) : Prop :=
  b.score ≤ a.score ∧
  (a.score = b.score → strLeB a.slot_datetime b.slot_datetime = true)

/-! ### Concrete fixtures used by witnesses and counterexamples -/

/-- The empty database. -/
def emptyDB : DB :=
  { meetings := [], time_slots := [], responses := [],
    meeting_participants := [], contacts := [], contact_groups := [],
    group_members := [], shared_groups := [], suggested_slots := [] }

/-- A meeting already in status `finalized` (with a finalized slot), one
proposed slot, and one `available` response — the configuration on which a
second finalize attempt is exercised. -/
def dbFinalizedMeeting : DB :=
  { emptyDB with
      meetings := [{ id := "m1", title := "Standup", description := "",
                     organizer_email := "alice@example.com",
                     status := "finalized",
                     finalized_slot := some "at 2025-01-10T10:00:00" }],
      time_slots := [{ id := "s1", meeting_id := "m1",
                       slot_datetime := "2025-01-10T10:00:00",
                       duration_minutes := 60 },
                     { id := "s2", meeting_id := "m1",
                       slot_datetime := "2025-01-11T09:00:00",
                       duration_minutes := 60 }],
      responses := [{ id := "r1", meeting_id := "m1", contact_id := "c1",
                      slot_id := "s1", availability := "available",
                      created_at := "t1" }] }

/-- A finalized meeting used to exercise the cancel action. -/
def dbFinalizedForCancel : DB :=
  { emptyDB with
      meetings := [{ id := "m2", title := "Review", description := "",
                     organizer_email := "bob@example.com",
                     status := "finalized",
                     finalized_slot := some "at 2025-02-01T14:00:00" }] }

/-- A meeting in status `sent` with one slot and one response, from which a
finalize followed by a cancel is run. -/
def dbSentMeeting : DB :=
  { emptyDB with
      meetings := [{ id := "m3", title := "Sync", description := "",
                     organizer_email := "carol@example.com",
                     status := "sent", finalized_slot := none }],
      time_slots := [{ id := "s31", meeting_id := "m3",
                       slot_datetime := "2025-03-01T10:00:00",
                       duration_minutes := 30 },
                     { id := "s32", meeting_id := "m3",
                       slot_datetime := "2025-03-02T10:00:00",
                       duration_minutes := 30 }],
      responses := [{ id := "r31", meeting_id := "m3", contact_id := "c3",
                      slot_id := "s31", availability := "available",
                      created_at := "t3" }] }

/-- A cancelled meeting, for exercising terminality. -/
def dbCancelledMeeting : DB :=
  { emptyDB with
      meetings := [{ id := "m6", title := "Retro", description := "",
                     organizer_email := "fred@example.com",
                     status := "cancelled", finalized_slot := none }] }

/-- An environment with some entropy available to the process. -/
def envA : Env :=
  { now := "2025-01-01T00:00:00", fresh_id := "uuid-a", entropy := [3, 1, 4] }

/-- A second environment: same clock reading as `envA`, different entropy. -/
def envB : Env :=
  { now := "2025-01-01T00:00:00", fresh_id := "uuid-b", entropy := [2, 7, 1] }

/-- A later environment for second calls. -/
def envC : Env :=
  { now := "2025-06-30T12:00:00", fresh_id := "uuid-c", entropy := [9] }

/-- The scoring fixture of the spec's determinism property: slot `sA`
starts earlier and has 2 available + 1 maybe (score 2.5), slot `sB` starts
later and has 2 available + 0 maybe (score 2.0); slots `sC` and `sD` tie at
score 1.0 with `sC` starting earlier. -/
def dbScoring : DB :=
  { emptyDB with
      meetings := [{ id := "m4", title := "Planning", description := "",
                     organizer_email := "dan@example.com",
                     status := "sent", finalized_slot := none }],
      time_slots := [{ id := "sB", meeting_id := "m4",
                       slot_datetime := "2025-04-02T10:00:00",
                       duration_minutes := 60 },
                     { id := "sA", meeting_id := "m4",
                       slot_datetime := "2025-04-01T10:00:00",
                       duration_minutes := 60 },
                     { id := "sD", meeting_id := "m4",
                       slot_datetime := "2025-04-04T10:00:00",
                       duration_minutes := 60 },
                     { id := "sC", meeting_id := "m4",
                       slot_datetime := "2025-04-03T10:00:00",
                       duration_minutes := 60 }],
      responses := [{ id := "q1", meeting_id := "m4", contact_id := "p1",
                      slot_id := "sA", availability := "available",
                      created_at := "t" },
                    { id := "q2", meeting_id := "m4", contact_id := "p2",
                      slot_id := "sA", availability := "available",
                      created_at := "t" },
                    { id := "q3", meeting_id := "m4", contact_id := "p3",
                      slot_id := "sA", availability := "maybe",
                      created_at := "t" },
                    { id := "q4", meeting_id := "m4", contact_id := "p1",
                      slot_id := "sB", availability := "available",
                      created_at := "t" },
                    { id := "q5", meeting_id := "m4", contact_id := "p2",
                      slot_id := "sB", availability := "available",
                      created_at := "t" },
                    { id := "q6", meeting_id := "m4", contact_id := "p3",
                      slot_id := "sB", availability := "unavailable",
                      created_at := "t" },
                    { id := "q7", meeting_id := "m4", contact_id := "p1",
                      slot_id := "sC", availability := "available",
                      created_at := "t" },
                    { id := "q8", meeting_id := "m4", contact_id := "p1",
                      slot_id := "sD", availability := "available",
                      created_at := "t" }] }

/-- The database after one token issuance for ("m1", "c1") from the empty
database under `envA`'s clock. -/
def dbAfterIssue : DB :=
  { emptyDB with
      meeting_participants :=
        [{ meeting_id := "m1", contact_id := "c1",
           token := make_token "m1" "c1" "2025-01-01T00:00:00",
           responded := false, responded_at := none }] }

/-- Sharing fixture: a group owned by organizer A, shared with organizer
B. -/
def dbSharedGroup : DB :=
  { emptyDB with
      contact_groups := [{ id := "g1", owner_email := "a@example.com",
                           name := "Faculty", description := "",
                           is_shared := true }],
      shared_groups := [{ group_id := "g1",
                          shared_with_email := "b@example.com" }] }

/-- Participant-page fixture: a meeting with one slot, one participant
binding and its token. -/
def dbParticipantMeeting : DB :=
  { emptyDB with
      meetings := [{ id := "m5", title := "Demo", description := "",
                     organizer_email := "erin@example.com",
                     status := "sent", finalized_slot := none }],
      time_slots := [{ id := "s51", meeting_id := "m5",
                       slot_datetime := "2025-05-01T15:00:00",
                       duration_minutes := 45 }],
      meeting_participants := [{ meeting_id := "m5", contact_id := "c5",
                                 token := "tok5", responded := false,
                                 responded_at := none }] }


attribute [irreducible] make_token

/-! ### Generic facts about the embedded `ORDER BY` sort -/

theorem mem_orderedInsertBy {α : Type} (le : α → α → Bool) (x : α)
    (l : List α) (z : α) :
    z ∈ orderedInsertBy le x l ↔ z = x ∨ z ∈ l := by
  induction l with
  | nil => simp [orderedInsertBy]
  | cons y ys ih =>
    by_cases h : le x y
    · simp [orderedInsertBy, h]
    · simp only [orderedInsertBy, h, Bool.false_eq_true, if_false,
        List.mem_cons, ih]
      tauto

theorem mem_insertionSortBy {α : Type} (le : α → α → Bool) (l : List α)
    (z : α) : z ∈ insertionSortBy le l ↔ z ∈ l := by
  induction l with
  | nil => simp [insertionSortBy]
  | cons x xs ih =>
    simp [insertionSortBy, mem_orderedInsertBy, ih]

/-! ### C9: deleting a slot cascades over exactly its responses -/

/-- C9.  Deleting a TimeSlot removes exactly the Responses referencing that
slot — every response on any other slot (of this or any other meeting)
survives verbatim, in order — removes exactly that slot from the slot
table, and touches no other table. -/
theorem delete_time_slot_cascade (st : DB) (sid : String) :
    (∀ r : ResponseRow, r ∈ (delete_time_slot st sid).responses ↔
      r ∈ st.responses ∧ r.slot_id ≠ sid) ∧
    (∀ s2 : String, s2 ≠ sid →
      responses_for_slot (delete_time_slot st sid) s2 =
        responses_for_slot st s2) ∧
    (∀ s : TimeSlot, s ∈ (delete_time_slot st sid).time_slots ↔
      s ∈ st.time_slots ∧ s.id ≠ sid) ∧
    (delete_time_slot st sid).meetings = st.meetings ∧
    (delete_time_slot st sid).meeting_participants =
      st.meeting_participants ∧
    (delete_time_slot st sid).suggested_slots = st.suggested_slots := by
  refine ⟨?_, ?_, ?_, rfl, rfl, rfl⟩
  · intro r
    simp [delete_time_slot, List.mem_filter]
  · intro s2 h
    simp only [delete_time_slot, responses_for_slot, List.filter_filter]
    refine List.filter_congr ?_
    intro r _
    by_cases hr : r.slot_id = s2
    · simp [hr, h]
    · simp [hr]
  · intro s
    simp [delete_time_slot, List.mem_filter]

/-- C9 witness: a concrete database with responses on two slots; deleting
slot `s1` leaves slot `s2`'s responses untouched. -/
theorem delete_time_slot_cascade_witness :
    responses_for_slot (delete_time_slot
      { meetings := [], time_slots :=
          [{ id := "s1", meeting_id := "m1", slot_datetime := "2025-01-02T10:00:00",
             duration_minutes := 60 },
           { id := "s2", meeting_id := "m1", slot_datetime := "2025-01-03T10:00:00",
             duration_minutes := 60 }],
        responses :=
          [{ id := "r1", meeting_id := "m1", contact_id := "c1", slot_id := "s1",
             availability := "available", created_at := "t1" },
           { id := "r2", meeting_id := "m1", contact_id := "c1", slot_id := "s2",
             availability := "maybe", created_at := "t2" }],
        meeting_participants := [], contacts := [], contact_groups := [],
        group_members := [], shared_groups := [], suggested_slots := [] } "s1")
      "s2" =
    responses_for_slot
      { meetings := [], time_slots :=
          [{ id := "s1", meeting_id := "m1", slot_datetime := "2025-01-02T10:00:00",
             duration_minutes := 60 },
           { id := "s2", meeting_id := "m1", slot_datetime := "2025-01-03T10:00:00",
             duration_minutes := 60 }],
        responses :=
          [{ id := "r1", meeting_id := "m1", contact_id := "c1", slot_id := "s1",
             availability := "available", created_at := "t1" },
           { id := "r2", meeting_id := "m1", contact_id := "c1", slot_id := "s2",
             availability := "maybe", created_at := "t2" }],
        meeting_participants := [], contacts := [], contact_groups := [],
        group_members := [], shared_groups := [], suggested_slots := [] } "s2" :=
  (delete_time_slot_cascade _ "s1").2.1 "s2" (by decide)

/-! ### C7: response submission is an upsert, unique per
(meeting, contact, slot) -/

/-- Unfolding lemma: the response table after a `save_response` that found
no existing row for the key. -/
theorem save_response_responses_none (e : Env) (st : DB) (m c s av : String)
    (h : st.responses.find? (respKey m c s) = none) :
    (save_response e st m c s av).responses =
      st.responses ++ [({ id := e.fresh_id, meeting_id := m,
                          contact_id := c, slot_id := s,
                          availability := av,
                          created_at := e.now } : ResponseRow)] := by
  unfold save_response
  rw [h]

/-- Unfolding lemma: the response table after a `save_response` that found
an existing row `r` for the key. -/
theorem save_response_responses_some (e : Env) (st : DB) (m c s av : String)
    (r : ResponseRow) (h : st.responses.find? (respKey m c s) = some r) :
    (save_response e st m c s av).responses =
      st.responses.map (fun q =>
        if q.id == r.id then
          { q with availability := av, created_at := e.now }
        else q) := by
  unfold save_response
  rw [h]

/-- C7.  Starting from a state with no row for the key, submitting `maybe`
then `available` for the same (meeting, contact, slot) leaves the response
table extended by exactly one row, and that row carries availability
`available` and the second submission's timestamp (the overwrite happened
in place, on the row the first submission inserted); moreover, from any
state whatsoever a submission leaves `max 1 n` rows for the key when `n`
were present — repeated submissions replace, never duplicate. -/
theorem save_response_upsert (e1 e2 : Env) (st : DB) (m c s : String)
    (h0 : countKey st m c s = 0)
    (hfresh : ∀ r ∈ st.responses, r.id ≠ e1.fresh_id) :
    (save_response e2 (save_response e1 st m c s "maybe") m c s
        "available").responses =
      st.responses ++ [({ id := e1.fresh_id, meeting_id := m,
                          contact_id := c, slot_id := s,
                          availability := "available",
                          created_at := e2.now } : ResponseRow)] ∧
    countKey (save_response e2 (save_response e1 st m c s "maybe") m c s
      "available") m c s = 1 ∧
    (∀ (e : Env) (stX : DB) (av : String),
      countKey (save_response e stX m c s av) m c s =
        max 1 (countKey stX m c s)) := by
  have hfilter0 : st.responses.filter (respKey m c s) = [] :=
    List.length_eq_zero.mp h0
  have hnone : st.responses.find? (respKey m c s) = none := by
    rw [List.find?_eq_none]
    intro x hx hpx
    exact (List.filter_eq_nil_iff.mp hfilter0) x hx (by simp [hpx])
  have hst1 : (save_response e1 st m c s "maybe").responses =
      st.responses ++ [({ id := e1.fresh_id, meeting_id := m,
                          contact_id := c, slot_id := s,
                          availability := "maybe",
                          created_at := e1.now } : ResponseRow)] :=
    save_response_responses_none e1 st m c s "maybe" hnone
  have hkeyrow : respKey m c s ({ id := e1.fresh_id, meeting_id := m,
                                  contact_id := c, slot_id := s,
                                  availability := "maybe",
                                  created_at := e1.now } : ResponseRow) =
      true := by simp [respKey]
  have hfind2 : (save_response e1 st m c s "maybe").responses.find?
      (respKey m c s) = some ({ id := e1.fresh_id, meeting_id := m,
                                contact_id := c, slot_id := s,
                                availability := "maybe",
                                created_at := e1.now } : ResponseRow) := by
    rw [hst1, List.find?_append, hnone]
    simp [hkeyrow]
  have hst2 : (save_response e2 (save_response e1 st m c s "maybe") m c s
      "available").responses =
      st.responses ++ [({ id := e1.fresh_id, meeting_id := m,
                          contact_id := c, slot_id := s,
                          availability := "available",
                          created_at := e2.now } : ResponseRow)] := by
    rw [save_response_responses_some _ _ m c s "available" _ hfind2]
    rw [hst1, List.map_append]
    congr 1
    · refine (List.map_congr_left ?_).trans (List.map_id _)
      intro q hq
      simp [show (q.id == e1.fresh_id) = false from beq_eq_false_iff_ne.mpr
        (hfresh q hq)]
    · simp
  refine ⟨hst2, ?_, ?_⟩
  · simp only [countKey, hst2, List.filter_append, hfilter0]
    simp [respKey]
  · intro e stX av
    cases hf : stX.responses.find? (respKey m c s) with
    | none =>
      have hzero : stX.responses.filter (respKey m c s) = [] := by
        rw [List.filter_eq_nil_iff]
        intro a ha
        simpa using List.find?_eq_none.mp hf a ha
      rw [countKey, countKey, save_response_responses_none _ _ _ _ _ _ hf,
        List.filter_append, hzero]
      simp [respKey]
    | some r =>
      have hkey : respKey m c s r = true := List.find?_some hf
      have hmem : r ∈ stX.responses := List.mem_of_find?_eq_some hf
      have hpos : 1 ≤ countKey stX m c s := by
        have hmemf : r ∈ stX.responses.filter (respKey m c s) :=
          List.mem_filter.mpr ⟨hmem, hkey⟩
        have := List.length_pos.mpr (List.ne_nil_of_mem hmemf)
        simpa [countKey] using this
      rw [countKey, countKey, save_response_responses_some e stX m c s av r hf,
        List.filter_map, List.length_map]
      rw [List.filter_congr (fun q _ => ?_)]
      · exact (Nat.max_eq_right hpos).symm
      · show respKey m c s (if q.id == r.id then
          { q with availability := av, created_at := e.now } else q) =
          respKey m c s q
        by_cases hid : q.id == r.id <;> simp [respKey, hid]

/-- C7 witness: concrete two-step submission on an initially empty response
table. -/
theorem save_response_upsert_witness :
    (save_response { now := "t2", fresh_id := "u2", entropy := [] }
      (save_response { now := "t1", fresh_id := "u1", entropy := [] }
        { meetings := [], time_slots := [], responses := [],
          meeting_participants := [], contacts := [], contact_groups := [],
          group_members := [], shared_groups := [], suggested_slots := [] }
        "m1" "c1" "s1" "maybe") "m1" "c1" "s1" "available").responses =
      [] ++ [({ id := "u1", meeting_id := "m1", contact_id := "c1",
                slot_id := "s1", availability := "available",
                created_at := "t2" } : ResponseRow)] :=
  (save_response_upsert { now := "t1", fresh_id := "u1", entropy := [] }
    { now := "t2", fresh_id := "u2", entropy := [] }
    { meetings := [], time_slots := [], responses := [],
      meeting_participants := [], contacts := [], contact_groups := [],
      group_members := [], shared_groups := [], suggested_slots := [] }
    "m1" "c1" "s1" (by decide) (by decide)).1

/-! ### C10: the participant submit flow always raises `TypeError` -/

/-- C10.  The submit handler of the participant page calls `save_response`
with the keyword `participant_id`, which `save_response` does not declare
(its parameter is `contact_id`); so for every token resolution, every
availability selection and every optional suggestion, the very first
per-slot call raises `TypeError` and the handler ends with the database
exactly as it started — no Response row, no SuggestedSlot row, and no
`responded` flag flip. -/
theorem participant_submit_type_errors (env : Env) (st : DB)
    (meeting_id participant_id : String) (sel : String → String)
    (alt : Option (String × Option String))
    (hslots : get_meeting_slots st meeting_id ≠ []) :
    render_participant_submit env st meeting_id participant_id sel alt =
      (st, some PyErr.typeError) := by
  have hkw : kwargsAccepted save_response_py_params
      submit_save_response_kwargs = false := by decide
  cases hl : get_meeting_slots st meeting_id with
  | nil => exact absurd hl hslots
  | cons s0 rest =>
    have hstep : submit_slots env meeting_id participant_id sel st
        (s0 :: rest) = (st, some PyErr.typeError) := by
      unfold submit_slots call_save_response
      rw [hkw]
      rfl
    unfold render_participant_submit
    rw [hl]
    simp only [hstep]

/-- C10 witness: on a concrete meeting with one slot the submission comes
back as a `TypeError` with the database unchanged. -/
theorem participant_submit_type_errors_witness :
    render_participant_submit envA dbParticipantMeeting "m5" "c5"
      (fun _ => "available") none =
      (dbParticipantMeeting, some PyErr.typeError) :=
  participant_submit_type_errors envA dbParticipantMeeting "m5" "c5"
    (fun _ => "available") none (by decide)

/-! ### C8: shared groups are read-only for the grantee -/

/-- C8.  For a group owned by organizer A and shared with organizer B
(A ≠ B, and no other group row reuses the id), the group-management page
dispatches no mutation for B on that group — rename, member addition or
removal, deletion, and sharing changes are all rejected — while B's group
listing still contains the group tagged with access kind `shared`. -/
theorem shared_group_readonly_for_grantee (st : DB) (g : GroupRow)
    (emailB : String)
    (hg : g ∈ st.contact_groups)
    (hgshared : g.is_shared = true)
    (hnotB : g.owner_email ≠ emailB)
    (hgrant : ({ group_id := g.id, shared_with_email := emailB } :
        SharedGroupRow) ∈ st.shared_groups)
    (hunique : ∀ g2 ∈ st.contact_groups, g2.id = g.id → g2 = g) :
    (∀ op : GroupOp, org_group_step st emailB g.id op = none) ∧
    ({ group := g, access_type := "shared" } : TaggedGroup) ∈
      get_groups_by_owner st emailB := by
  have hallowed : group_mutation_allowed st emailB g.id = false := by
    rw [group_mutation_allowed]
    rw [List.any_eq_false]
    intro tg htg
    rw [get_groups_by_owner] at htg
    simp only [List.mem_append, mem_insertionSortBy, List.mem_map,
      List.mem_filter] at htg
    rcases htg with ⟨g2, ⟨hg2, hown⟩, rfl⟩ | ⟨g2, _, rfl⟩
    · simp only [Bool.and_eq_true, beq_iff_eq]
      intro ⟨hid, _⟩
      have := hunique g2 hg2 hid
      subst this
      exact hnotB (by simpa using hown)
    · simp
  constructor
  · intro op
    simp [org_group_step, hallowed]
  · rw [get_groups_by_owner]
    refine List.mem_append.mpr (Or.inr ?_)
    rw [mem_insertionSortBy]
    exact List.mem_map.mpr ⟨g, List.mem_filter.mpr ⟨hg, by
      simp only [Bool.and_eq_true, hgshared, true_and]
      rw [List.any_eq_true]
      exact ⟨_, hgrant, by simp⟩⟩, rfl⟩

/-- C8 witness: the concrete shared-group fixture — organizer B can
dispatch no rename on A's group, which B's listing shows tagged
`shared`. -/
theorem shared_group_readonly_witness :
    (∀ op : GroupOp, org_group_step dbSharedGroup "b@example.com" "g1" op =
      none) ∧
    ({ group := { id := "g1", owner_email := "a@example.com",
                  name := "Faculty", description := "", is_shared := true },
       access_type := "shared" } : TaggedGroup) ∈
      get_groups_by_owner dbSharedGroup "b@example.com" :=
  shared_group_readonly_for_grantee dbSharedGroup
    { id := "g1", owner_email := "a@example.com", name := "Faculty",
      description := "", is_shared := true } "b@example.com"
    (by decide) (by decide) (by decide) (by decide) (by decide)

/-! ### Lifecycle helper lemmas -/

/-- The finalize handler's slot rendering is never the empty string, so it
always passes `update_meeting_status`'s truthiness test. -/
theorem render_slot_time_ne_empty (s : String) : render_slot_time s ≠ "" := by
  intro h
  have h2 := congrArg String.length h
  rw [render_slot_time, String.length_append] at h2
  have h3 : ("at " : String).length = 3 := rfl
  have h4 : ("" : String).length = 0 := rfl
  rw [h3, h4] at h2
  omega

theorem strTruthy_render_slot_time (s : String) :
    strTruthy (some (render_slot_time s)) = true := by
  simp [strTruthy, beq_eq_false_iff_ne.mpr (render_slot_time_ne_empty s)]

/-! ### C1: finalize carries no status guard -/

/-- C1 counterexample: on a meeting already in status `finalized` (with
`finalized_slot` set to the January 10 slot) a finalize attempt for the
other slot does not fail — it succeeds, keeps status `finalized`, and
overwrites `finalized_slot` with the newly chosen slot's rendering. -/
theorem finalize_on_finalized_succeeds :
    (step envA dbFinalizedMeeting
        (Op.orgFinalize "alice@example.com" "m1" "s2")).map (fun st =>
      st.meetings.map (fun m => (m.status, m.finalized_slot))) =
      some [("finalized", some (render_slot_time "2025-01-11T09:00:00"))] ∧
    dbFinalizedMeeting.meetings.map Meeting.finalized_slot =
      [some "at 2025-01-10T10:00:00"] ∧
    render_slot_time "2025-01-11T09:00:00" ≠ "at 2025-01-10T10:00:00" := by
  decide

/-- C1 as the code has it: the response view only keeps cancelled meetings
out of the selector, so a finalize attempt on a meeting whose id resolves
only to cancelled rows is impossible (`none`); but for a selectable meeting
of any status — `draft`, `sent` or `finalized` alike — with at least one
slot (the chosen one) and at least one response, finalize succeeds
unconditionally, setting status to `finalized` and `finalized_slot` to the
chosen slot's rendering; no `AlreadyFinalized`, `MeetingCancelled` or
`InvalidState` outcome exists. -/
theorem finalize_unguarded (env : Env) (st : DB) (o mid sid : String) :
    ((∀ m ∈ st.meetings, m.id = mid → m.status = "cancelled") →
      step env st (Op.orgFinalize o mid sid) = none) ∧
    (∀ m ∈ st.meetings, m.id = mid → m.organizer_email = o →
      m.status ≠ "cancelled" →
      (∃ s ∈ get_meeting_slots st mid, s.id = sid) →
      get_responses_for_meeting st mid ≠ [] →
      ∃ st', step env st (Op.orgFinalize o mid sid) = some st' ∧
        ∀ m2 ∈ st'.meetings, m2.id = mid →
          m2.status = "finalized" ∧ m2.finalized_slot ≠ none) := by
  constructor
  · intro hall
    have hsel : meeting_selectable st o mid = false := by
      rw [meeting_selectable, List.any_eq_false]
      intro m hm
      by_cases hid : m.id = mid
      · simp [hall m hm hid]
      · simp [hid]
    simp [step, hsel]
  · intro m hm hid horg hstatus hslot hresp
    have hsel : meeting_selectable st o mid = true := by
      rw [meeting_selectable, List.any_eq_true]
      exact ⟨m, hm, by simp [hid, horg, hstatus]⟩
    obtain ⟨s, hsmem, hsid⟩ := hslot
    have hfind : ∃ s2, (get_meeting_slots st mid).find?
        (fun s2 => s2.id == sid) = some s2 := by
      rw [← Option.isSome_iff_exists]
      rw [List.find?_isSome]
      exact ⟨s, hsmem, by simp [hsid]⟩
    obtain ⟨s2, hfind⟩ := hfind
    have hre : (get_responses_for_meeting st mid).isEmpty = false := by
      simpa [List.isEmpty_iff] using hresp
    have hse : (get_meeting_slots st mid).isEmpty = false := by
      simp [List.isEmpty_iff]
      exact List.ne_nil_of_mem hsmem
    refine ⟨update_meeting_status st mid "finalized"
      (some (render_slot_time s2.slot_datetime)), ?_, ?_⟩
    · simp [step, hsel, hre, hse, hfind]
    · intro m2 hm2 hm2id
      simp only [update_meeting_status, List.mem_map] at hm2
      obtain ⟨m0, hm0, rfl⟩ := hm2
      by_cases h0 : m0.id = mid
      · simp [h0, strTruthy_render_slot_time]
      · exfalso
        simp [h0] at hm2id

/-- C1 witness: the unguarded-finalize theorem applied to the concrete
finalized meeting. -/
theorem finalize_unguarded_witness :
    ∃ st', step envA dbFinalizedMeeting
        (Op.orgFinalize "alice@example.com" "m1" "s2") = some st' ∧
      ∀ m2 ∈ st'.meetings, m2.id = "m1" →
        m2.status = "finalized" ∧ m2.finalized_slot ≠ none :=
  (finalize_unguarded envA dbFinalizedMeeting "alice@example.com" "m1"
      "s2").2
    { id := "m1", title := "Standup", description := "",
      organizer_email := "alice@example.com", status := "finalized",
      finalized_slot := some "at 2025-01-10T10:00:00" }
    (by decide) rfl rfl (by decide)
    ⟨{ id := "s2", meeting_id := "m1",
       slot_datetime := "2025-01-11T09:00:00", duration_minutes := 60 },
     by decide, rfl⟩
    (by decide)

/-! ### Step-machine helper lemmas -/

/-- A successful `add_meeting_participant` never touches the `meetings`
table. -/
theorem add_meeting_participant_ok_meetings (env : Env) (st : DB)
    (mid cid : String) (st1 : DB) (t : String)
    (h : add_meeting_participant env st mid cid = .ok (st1, t)) :
    st1.meetings = st.meetings := by
  unfold add_meeting_participant at h
  split at h <;> dsimp only at h <;> split at h
  · simp only [Except.ok.injEq, Prod.mk.injEq] at h
    rw [← h.1]
  · simp only [Except.ok.injEq, Prod.mk.injEq] at h
    rw [← h.1]
  · exact absurd h (by simp)
  · simp only [Except.ok.injEq, Prod.mk.injEq] at h
    rw [← h.1]

/-- With pairwise-distinct meeting ids, two meetings sharing an id are the
same row. -/
theorem meeting_id_unique {st : DB}
    (hids : (st.meetings.map Meeting.id).Nodup)
    {m m2 : Meeting} (hm : m ∈ st.meetings) (hm2 : m2 ∈ st.meetings)
    (h : m2.id = m.id) : m2 = m :=
  List.inj_on_of_nodup_map hids hm2 hm h

/-! ### C6: `cancelled` is terminal, `finalized` is not -/

/-- C6 counterexample: the Cancel action on a meeting in the terminal
status `finalized` succeeds and moves it to `cancelled` — a transition out
of `finalized` (with the stale `finalized_slot` kept). -/
theorem cancel_on_finalized_succeeds :
    (step envA dbFinalizedForCancel
        (Op.orgCancel "bob@example.com" "m2")).map (fun st =>
      st.meetings.map (fun m => (m.status, m.finalized_slot))) =
      some [("cancelled", some "at 2025-02-01T14:00:00")] := by
  decide

/-- C6 as the code has it: a meeting in status `cancelled` is frozen — the
response view never offers it, so no reachable operation changes its
status — but `finalized` is not terminal: the Cancel action applies to a
finalized meeting and moves its status to `cancelled`. -/
theorem cancelled_terminal_finalized_not (env : Env) (st : DB) (op : Op)
    (st2 : DB) (hids : (st.meetings.map Meeting.id).Nodup)
    (hstep : step env st op = some st2) :
    (∀ m ∈ st.meetings, m.status = "cancelled" →
      ∀ m2 ∈ st2.meetings, m2.id = m.id → m2.status = "cancelled") ∧
    (∀ (env2 : Env) (st3 : DB) (m : Meeting), m ∈ st3.meetings →
      m.status = "finalized" →
      ∃ st4, step env2 st3 (Op.orgCancel m.organizer_email m.id) =
          some st4 ∧
        ∀ m2 ∈ st4.meetings, m2.id = m.id → m2.status = "cancelled") := by
  constructor
  · intro m hm hcanc m2 hm2 hm2id
    cases op with
    | orgCancel o mid =>
      simp only [step] at hstep
      split at hstep <;> rename_i hsel
      · obtain rfl : update_meeting_status st mid "cancelled" none = st2 :=
          Option.some.inj hstep
        simp only [update_meeting_status, List.mem_map] at hm2
        obtain ⟨m0, hm0, rfl⟩ := hm2
        by_cases h0 : m0.id == mid
        · simp [h0, strTruthy]
        · simp only [h0, Bool.false_eq_true, if_false] at hm2id ⊢
          rw [meeting_id_unique hids hm hm0 hm2id, hcanc]
      · exact absurd hstep (by simp)
    | orgFinalize o mid sid =>
      simp only [step] at hstep
      split at hstep <;> rename_i hsel
      · split at hstep <;> rename_i hemp
        · exact absurd hstep (by simp)
        · split at hstep <;> rename_i s2 hfind
          · obtain rfl : update_meeting_status st mid "finalized"
                (some (render_slot_time s2.slot_datetime)) = st2 :=
              Option.some.inj hstep
            simp only [update_meeting_status, List.mem_map] at hm2
            obtain ⟨m0, hm0, rfl⟩ := hm2
            by_cases h0 : m0.id == mid
            · exfalso
              rw [meeting_selectable, List.any_eq_true] at hsel
              obtain ⟨m1, hm1, hcond⟩ := hsel
              simp only [Bool.and_eq_true, beq_iff_eq, Bool.not_eq_true,
                beq_eq_false_iff_ne] at hcond
              have h0eq : m0.id = mid := by simpa using h0
              have hm2id2 : m0.id = m.id := by
                simpa [h0, strTruthy_render_slot_time] using hm2id
              have hm0m : m0 = m := meeting_id_unique hids hm hm0 hm2id2
              have hm1m : m1 = m := meeting_id_unique hids hm hm1
                (by rw [hcond.1.1, ← h0eq, hm0m])
              have hne1 : m1.status ≠ "cancelled" := by simpa using hcond.2
              exact hne1 (hm1m ▸ hcanc)
            · simp only [h0, Bool.false_eq_true, if_false] at hm2id ⊢
              rw [meeting_id_unique hids hm hm0 hm2id, hcanc]
          · exact absurd hstep (by simp)
      · exact absurd hstep (by simp)
    | createSend mid title descr o =>
      simp only [step] at hstep
      split at hstep <;> rename_i hdup
      · exact absurd hstep (by simp)
      · obtain rfl : update_meeting_status _ mid "sent" none = st2 :=
          Option.some.inj hstep
        simp only [update_meeting_status, List.mem_map, List.mem_append,
          List.mem_singleton] at hm2
        have hdup2 : ∀ m3 ∈ st.meetings, m3.id ≠ mid := by
          rw [Bool.not_eq_true, List.any_eq_false] at hdup
          intro m3 hm3
          simpa using hdup m3 hm3
        obtain ⟨m0, hm0 | rfl, rfl⟩ := hm2
        · have hne : m0.id ≠ mid := hdup2 m0 hm0
          simp only [beq_eq_false_iff_ne.mpr hne, Bool.false_eq_true,
            if_false] at hm2id ⊢
          rw [meeting_id_unique hids hm hm0 hm2id, hcanc]
        · exfalso
          by_cases h0 : (mid == mid) = true
          · simp only [h0, if_true, strTruthy] at hm2id
            exact hdup2 m hm (by simpa using hm2id.symm)
          · simp at h0
    | addSlot mid dt dur =>
      obtain rfl : add_time_slot st mid dt dur env.fresh_id = st2 :=
        Option.some.inj hstep
      rw [meeting_id_unique hids hm hm2 hm2id, hcanc]
    | addParticipant mid cid =>
      simp only [step] at hstep
      split at hstep <;> rename_i st1 tok heq
      · obtain rfl : st1 = st2 := Option.some.inj hstep
        rw [add_meeting_participant_ok_meetings env st mid cid st1 tok heq]
          at hm2
        rw [meeting_id_unique hids hm hm2 hm2id, hcanc]
      · exact absurd hstep (by simp)
    | saveResp mid cid sid av =>
      obtain rfl : save_response env st mid cid sid av = st2 :=
        Option.some.inj hstep
      have hmeet : (save_response env st mid cid sid av).meetings =
          st.meetings := by
        unfold save_response
        dsimp only
        split <;> rfl
      rw [hmeet] at hm2
      rw [meeting_id_unique hids hm hm2 hm2id, hcanc]
    | delSlot sid =>
      obtain rfl : delete_time_slot st sid = st2 := Option.some.inj hstep
      rw [meeting_id_unique hids hm hm2 hm2id, hcanc]
    | suggest mid cid dt note =>
      obtain rfl : add_suggested_slot env st mid cid dt note = st2 :=
        Option.some.inj hstep
      rw [meeting_id_unique hids hm hm2 hm2id, hcanc]
    | markResponded mid cid =>
      obtain rfl : mark_participant_responded env st mid cid = st2 :=
        Option.some.inj hstep
      rw [meeting_id_unique hids hm hm2 hm2id, hcanc]
  · intro env2 st3 m hm hfin
    have hne : m.status ≠ "cancelled" := by rw [hfin]; decide
    have hsel : meeting_selectable st3 m.organizer_email m.id = true := by
      rw [meeting_selectable, List.any_eq_true]
      exact ⟨m, hm, by simp [hne]⟩
    refine ⟨update_meeting_status st3 m.id "cancelled" none, ?_, ?_⟩
    · simp [step, hsel]
    · intro m2 hm2 hm2id
      simp only [update_meeting_status, List.mem_map] at hm2
      obtain ⟨m0, hm0, rfl⟩ := hm2
      by_cases h0 : m0.id == m.id
      · simp [h0, strTruthy]
      · exfalso
        simp only [h0, Bool.false_eq_true, if_false] at hm2id
        exact absurd (by simpa using hm2id)
          (by simpa using h0)

/-- C6 witness: the terminality theorem applied to a concrete cancelled
meeting and a concrete (responded-flag) step. -/
theorem cancelled_terminal_witness :
    (∀ m ∈ dbCancelledMeeting.meetings, m.status = "cancelled" →
      ∀ m2 ∈ dbCancelledMeeting.meetings, m2.id = m.id →
        m2.status = "cancelled") ∧
    (∀ (env2 : Env) (st3 : DB) (m : Meeting), m ∈ st3.meetings →
      m.status = "finalized" →
      ∃ st4, step env2 st3 (Op.orgCancel m.organizer_email m.id) =
          some st4 ∧
        ∀ m2 ∈ st4.meetings, m2.id = m.id → m2.status = "cancelled") :=
  cancelled_terminal_finalized_not envA dbCancelledMeeting
    (Op.markResponded "x" "y") dbCancelledMeeting (by decide) (by decide)

/-! ### C5: `finalized_slot` bookkeeping -/

/-- C5 counterexample: finalizing the sent meeting and then cancelling it
leaves status `cancelled` with `finalized_slot` still set (so
non-null `finalized_slot` does not imply status `finalized`); and a second
finalize for the other slot overwrites `finalized_slot` (so it is not
assigned exactly once). -/
theorem finalized_slot_iff_counterexample :
    (runOps [(envA, Op.orgFinalize "carol@example.com" "m3" "s31"),
             (envC, Op.orgCancel "carol@example.com" "m3")]
        dbSentMeeting).map (fun st =>
      st.meetings.map (fun m => (m.status, m.finalized_slot))) =
      some [("cancelled", some (render_slot_time "2025-03-01T10:00:00"))] ∧
    (runOps [(envA, Op.orgFinalize "carol@example.com" "m3" "s31"),
             (envC, Op.orgFinalize "carol@example.com" "m3" "s32")]
        dbSentMeeting).map (fun st =>
      st.meetings.map Meeting.finalized_slot) =
      some [some (render_slot_time "2025-03-02T10:00:00")] ∧
    render_slot_time "2025-03-02T10:00:00" ≠
      render_slot_time "2025-03-01T10:00:00" := by
  decide

/-- C5 as the code has it: every reachable operation preserves the weaker
bookkeeping `MeetingInv` — a `finalized` meeting always has
`finalized_slot` set, and a set `finalized_slot` means the meeting is
`finalized` or is a finalized meeting that was later `cancelled`; the
field is never cleared, but it is not write-once (re-finalization
overwrites it) and it survives cancellation. -/
theorem finalized_slot_invariant (env : Env) (st : DB) (op : Op) (st2 : DB)
    (hinv : MeetingInv st) (hstep : step env st op = some st2) :
    MeetingInv st2 := by
  cases op with
  | orgCancel o mid =>
    simp only [step] at hstep
    split at hstep <;> rename_i hsel
    · obtain rfl := Option.some.inj hstep
      intro m2 hm2
      simp only [update_meeting_status, List.mem_map] at hm2
      obtain ⟨m0, hm0, rfl⟩ := hm2
      by_cases h0 : (m0.id == mid) = true
      · refine ⟨?_, ?_⟩ <;> simp [h0, strTruthy]
      · simpa [h0] using hinv m0 hm0
    · exact absurd hstep (by simp)
  | orgFinalize o mid sid =>
    simp only [step] at hstep
    split at hstep <;> rename_i hsel
    · split at hstep <;> rename_i hemp
      · exact absurd hstep (by simp)
      · split at hstep <;> rename_i s2 hfind
        · obtain rfl := Option.some.inj hstep
          intro m2 hm2
          simp only [update_meeting_status, List.mem_map] at hm2
          obtain ⟨m0, hm0, rfl⟩ := hm2
          by_cases h0 : (m0.id == mid) = true
          · refine ⟨?_, ?_⟩ <;>
              simp [h0, strTruthy_render_slot_time]
          · simpa [h0] using hinv m0 hm0
        · exact absurd hstep (by simp)
    · exact absurd hstep (by simp)
  | createSend mid title descr o =>
    simp only [step] at hstep
    split at hstep <;> rename_i hdup
    · exact absurd hstep (by simp)
    · obtain rfl := Option.some.inj hstep
      have hdup2 : ∀ m3 ∈ st.meetings, m3.id ≠ mid := by
        rw [Bool.not_eq_true, List.any_eq_false] at hdup
        intro m3 hm3
        simpa using hdup m3 hm3
      intro m2 hm2
      simp only [update_meeting_status, List.mem_map, List.mem_append,
        List.mem_singleton] at hm2
      obtain ⟨m0, hm0 | rfl, rfl⟩ := hm2
      · simpa [beq_eq_false_iff_ne.mpr (hdup2 m0 hm0)] using hinv m0 hm0
      · by_cases h0 : (mid == mid) = true
        · refine ⟨?_, ?_⟩ <;> simp [h0, strTruthy]
        · simp at h0
  | addSlot mid dt dur =>
    obtain rfl := Option.some.inj hstep
    intro m2 hm2
    exact hinv m2 hm2
  | addParticipant mid cid =>
    simp only [step] at hstep
    split at hstep <;> rename_i st1 tok heq
    · obtain rfl := Option.some.inj hstep
      intro m2 hm2
      rw [add_meeting_participant_ok_meetings env st mid cid st1 tok heq]
        at hm2
      exact hinv m2 hm2
    · exact absurd hstep (by simp)
  | saveResp mid cid sid av =>
    obtain rfl := Option.some.inj hstep
    intro m2 hm2
    have hmeet : (save_response env st mid cid sid av).meetings =
        st.meetings := by
      unfold save_response
      dsimp only
      split <;> rfl
    rw [hmeet] at hm2
    exact hinv m2 hm2
  | delSlot sid =>
    obtain rfl := Option.some.inj hstep
    intro m2 hm2
    exact hinv m2 hm2
  | suggest mid cid dt note =>
    obtain rfl := Option.some.inj hstep
    intro m2 hm2
    exact hinv m2 hm2
  | markResponded mid cid =>
    obtain rfl := Option.some.inj hstep
    intro m2 hm2
    exact hinv m2 hm2

/-- C5 witness: the invariant is preserved across a concrete finalize of
the sent fixture meeting. -/
theorem finalized_slot_invariant_witness :
    MeetingInv (update_meeting_status dbSentMeeting "m3" "finalized"
      (some (render_slot_time "2025-03-01T10:00:00"))) :=
  finalized_slot_invariant envA dbSentMeeting
    (Op.orgFinalize "carol@example.com" "m3" "s31")
    (update_meeting_status dbSentMeeting "m3" "finalized"
      (some (render_slot_time "2025-03-01T10:00:00")))
    (by unfold MeetingInv; decide) (by decide)

/-! ### Token issuance: characterization and stability -/

/-- What a successful `add_meeting_participant` did: either the
(meeting, contact) binding existed and its stored token came back with the
state untouched, or no binding and no token collision existed and a fresh
row with the hash-of-ids-and-clock token was inserted. -/
theorem add_meeting_participant_spec (e : Env) (st : DB) (m c : String)
    (st1 : DB) (t : String)
    (h : add_meeting_participant e st m c = .ok (st1, t)) :
    (∃ p, st.meeting_participants.find? (fun p =>
        p.meeting_id == m && p.contact_id == c) = some p ∧
      st1 = st ∧ t = p.token) ∨
    ((st.meeting_participants.any (fun p =>
        p.meeting_id == m && p.contact_id == c)) = false ∧
     (st.meeting_participants.any (fun p =>
        p.token == make_token m c e.now)) = false ∧
     t = make_token m c e.now ∧
     st1 = { st with meeting_participants := st.meeting_participants ++
        [{ meeting_id := m, contact_id := c, token := t,
           responded := false, responded_at := none }] }) := by
  unfold add_meeting_participant at h
  split at h <;> dsimp only at h
  · rename_i x p hfind
    split at h <;> rename_i hcond
    · simp only [Except.ok.injEq, Prod.mk.injEq] at h
      exact Or.inl ⟨p, hfind, h.1.symm, h.2.symm⟩
    · exfalso
      apply hcond
      have hp := List.find?_some hfind
      have hpm := List.mem_of_find?_eq_some hfind
      have hany : st.meeting_participants.any (fun p =>
          p.meeting_id == m && p.contact_id == c) = true := by
        rw [List.any_eq_true]
        exact ⟨p, hpm, hp⟩
      rw [hany, Bool.true_or]
  · rename_i x hfind
    split at h <;> rename_i hcond
    · exact absurd h (by simp)
    · simp only [Except.ok.injEq, Prod.mk.injEq] at h
      rw [Bool.or_eq_true, not_or, Bool.not_eq_true, Bool.not_eq_true]
        at hcond
      refine Or.inr ⟨hcond.1, hcond.2, h.2.symm, ?_⟩
      rw [← h.1, ← h.2]

/-- Resolution depends only on the participants table. -/
theorem resolve_token_congr (st st2 : DB) (t : String)
    (h : st2.meeting_participants = st.meeting_participants) :
    resolve_token st2 t = resolve_token st t := by
  unfold resolve_token
  rw [h]

/-- The responded-flag update keeps every row's token and
(meeting, contact) pair, so token lookup is unchanged on the list level. -/
theorem find_token_map_mark (e : Env) (m c t : String)
    (l : List ParticipantRow) :
    ((l.map (fun p => if p.meeting_id == m && p.contact_id == c then
        { p with responded := true, responded_at := some e.now }
      else p)).find? (fun p => p.token == t)).map
        (fun p => (p.meeting_id, p.contact_id)) =
    (l.find? (fun p => p.token == t)).map
        (fun p => (p.meeting_id, p.contact_id)) := by
  induction l with
  | nil => rfl
  | cons p l ih =>
    have htok : ((if (p.meeting_id == m && p.contact_id == c) = true then
        ({ p with responded := true,
                  responded_at := some e.now } : ParticipantRow)
      else p).token == t) = (p.token == t) := by
      split <;> rfl
    cases hts : (p.token == t) with
    | false =>
      simp only [List.map_cons, List.find?_cons, htok, hts]
      exact ih
    | true =>
      simp only [List.map_cons, List.find?_cons, htok, hts,
        Option.map_some']
      split <;> rfl

/-- Marking a participant as responded does not change what any token
resolves to. -/
theorem resolve_token_mark (env : Env) (st : DB) (m c t : String) :
    resolve_token (mark_participant_responded env st m c) t =
      resolve_token st t := by
  unfold resolve_token mark_participant_responded
  exact find_token_map_mark env m c t st.meeting_participants

/-- A successful `add_meeting_participant` preserves what every token
resolves to. -/
theorem add_meeting_participant_ok_resolve (e : Env) (st st1 : DB)
    (m c tok t : String) (pr : String × String)
    (heq : add_meeting_participant e st m c = .ok (st1, tok))
    (hres : resolve_token st t = some pr) :
    resolve_token st1 t = some pr := by
  rcases add_meeting_participant_spec e st m c st1 tok heq with
    ⟨p, _, rfl, _⟩ | ⟨_, _, _, rfl⟩
  · exact hres
  · unfold resolve_token at hres ⊢
    cases hf : st.meeting_participants.find? (fun p => p.token == t) with
    | none => rw [hf] at hres; simp at hres
    | some q =>
      rw [hf] at hres
      show ((st.meeting_participants ++ _).find?
        (fun p => p.token == t)).map _ = some pr
      rw [List.find?_append, hf]
      simpa using hres

/-- Every reachable operation preserves what every token resolves to. -/
theorem step_preserves_resolve (env : Env) (st : DB) (op : Op) (st2 : DB)
    (hstep : step env st op = some st2) (t : String) (pr : String × String)
    (hres : resolve_token st t = some pr) :
    resolve_token st2 t = some pr := by
  cases op with
  | orgCancel o mid =>
    simp only [step] at hstep
    split at hstep
    · obtain rfl := Option.some.inj hstep
      exact (resolve_token_congr st _ t rfl).trans hres
    · exact absurd hstep (by simp)
  | orgFinalize o mid sid =>
    simp only [step] at hstep
    split at hstep
    · split at hstep
      · exact absurd hstep (by simp)
      · split at hstep
        · obtain rfl := Option.some.inj hstep
          exact (resolve_token_congr st _ t rfl).trans hres
        · exact absurd hstep (by simp)
    · exact absurd hstep (by simp)
  | createSend mid title descr o =>
    simp only [step] at hstep
    split at hstep
    · exact absurd hstep (by simp)
    · obtain rfl := Option.some.inj hstep
      exact (resolve_token_congr st _ t rfl).trans hres
  | addSlot mid dt dur =>
    obtain rfl := Option.some.inj hstep
    exact (resolve_token_congr st _ t rfl).trans hres
  | addParticipant mid cid =>
    simp only [step] at hstep
    split at hstep <;> rename_i st1 tok heq
    · obtain rfl := Option.some.inj hstep
      exact add_meeting_participant_ok_resolve env st st1 mid cid tok t pr
        heq hres
    · exact absurd hstep (by simp)
  | saveResp mid cid sid av =>
    obtain rfl := Option.some.inj hstep
    have hpart : (save_response env st mid cid sid av).meeting_participants
        = st.meeting_participants := by
      unfold save_response
      dsimp only
      split <;> rfl
    exact (resolve_token_congr st _ t hpart).trans hres
  | delSlot sid =>
    obtain rfl := Option.some.inj hstep
    exact (resolve_token_congr st _ t rfl).trans hres
  | suggest mid cid dt note =>
    obtain rfl := Option.some.inj hstep
    exact (resolve_token_congr st _ t rfl).trans hres
  | markResponded mid cid =>
    obtain rfl := Option.some.inj hstep
    exact (resolve_token_mark env st mid cid t).trans hres

/-- Whole runs preserve what every token resolves to. -/
theorem runOps_preserves_resolve (l : List (Env × Op)) (st st2 : DB)
    (t : String) (pr : String × String)
    (hrun : runOps l st = some st2)
    (hres : resolve_token st t = some pr) :
    resolve_token st2 t = some pr := by
  induction l generalizing st with
  | nil =>
    obtain rfl := Option.some.inj hrun
    exact hres
  | cons p rest ih =>
    obtain ⟨e, op⟩ := p
    unfold runOps at hrun
    cases hstep : step e st op with
    | none => rw [hstep] at hrun; simp at hrun
    | some st3 =>
      rw [hstep] at hrun
      exact ih st3 hrun (step_preserves_resolve e st op st3 hstep t pr hres)

/-! ### C2: the token is a deterministic hash, independent of entropy -/

/-- C2.  For a fresh (meeting, contact) binding, the issued token is fully
determined by the meeting id, the contact id and the wall-clock reading:
two issuances under environments that agree on the clock — with arbitrary,
different entropy pools and uuid streams — produce the identical token,
and that token is exactly the first 32 hex characters of the SHA-256 of
the colon-separated meeting id, contact id and clock reading.  No
cryptographically unguessable
source is consulted: a third party who knows the ids and can guess the
issuance timestamp computes the token. -/
theorem token_deterministic_hash (e1 e2 : Env) (st : DB) (m c : String)
    (st1 st2 : DB) (t1 t2 : String)
    (hnow : e1.now = e2.now)
    (hfresh : ∀ p ∈ st.meeting_participants,
      ¬(p.meeting_id = m ∧ p.contact_id = c))
    (h1 : add_meeting_participant e1 st m c = .ok (st1, t1))
    (h2 : add_meeting_participant e2 st m c = .ok (st2, t2)) :
    t1 = t2 ∧
    t1 = (sha256hex (strBytes (m ++ ":" ++ c ++ ":" ++ e1.now))).take 32
    := by
  have hx1 := add_meeting_participant_spec e1 st m c st1 t1 h1
  have hx2 := add_meeting_participant_spec e2 st m c st2 t2 h2
  rcases hx1 with ⟨p, hfind, _, _⟩ | ⟨_, _, ht1, _⟩
  · exact absurd (by simpa using List.find?_some hfind)
      (hfresh p (List.mem_of_find?_eq_some hfind))
  · rcases hx2 with ⟨p, hfind, _, _⟩ | ⟨_, _, ht2, _⟩
    · exact absurd (by simpa using List.find?_some hfind)
        (hfresh p (List.mem_of_find?_eq_some hfind))
    · refine ⟨?_, ?_⟩
      · rw [ht1, ht2, hnow]
      · rw [ht1]
        unfold make_token
        rfl

/-- C2 witness: concrete issuance from the empty database under two
environments with equal clocks and different entropy. -/
theorem token_deterministic_hash_witness :
    make_token "m1" "c1" "2025-01-01T00:00:00" =
      make_token "m1" "c1" "2025-01-01T00:00:00" ∧
    make_token "m1" "c1" "2025-01-01T00:00:00" =
      (sha256hex (strBytes ("m1" ++ ":" ++ "c1" ++ ":" ++
        "2025-01-01T00:00:00"))).take 32 :=
  token_deterministic_hash envA envB emptyDB "m1" "c1"
    dbAfterIssue dbAfterIssue
    (make_token "m1" "c1" "2025-01-01T00:00:00")
    (make_token "m1" "c1" "2025-01-01T00:00:00")
    rfl (by decide) rfl rfl

/-! ### C4: token issuance is idempotent and tokens are stable -/

/-- C4.  After a successful issuance for (m, c) — in a state whose stored
tokens are pairwise distinct, as the UNIQUE column guarantees — a second
issuance under any environment returns the identical token and leaves the
state unchanged; the token resolves to exactly the pair (m, c); and it
keeps resolving to (m, c) after any run of reachable operations elsewhere
in the system. -/
theorem issue_token_idempotent_stable (e1 e2 : Env) (st st1 : DB)
    (m c t1 : String)
    (htok : (st.meeting_participants.map ParticipantRow.token).Nodup)
    (h1 : add_meeting_participant e1 st m c = .ok (st1, t1)) :
    add_meeting_participant e2 st1 m c = .ok (st1, t1) ∧
    resolve_token st1 t1 = some (m, c) ∧
    (∀ (l : List (Env × Op)) (st2 : DB), runOps l st1 = some st2 →
      resolve_token st2 t1 = some (m, c)) := by
  have hmain : add_meeting_participant e2 st1 m c = .ok (st1, t1) ∧
      resolve_token st1 t1 = some (m, c) := by
    rcases add_meeting_participant_spec e1 st m c st1 t1 h1 with
      ⟨p, hfind, hst, ht⟩ | ⟨hpk, htk, ht, hst⟩
    · rw [hst, ht]
      have hp := List.find?_some hfind
      have hpm : p ∈ st.meeting_participants :=
        List.mem_of_find?_eq_some hfind
      have hpair : p.meeting_id = m ∧ p.contact_id = c := by simpa using hp
      have hany : (st.meeting_participants.any (fun p =>
          p.meeting_id == m && p.contact_id == c)) = true := by
        rw [List.any_eq_true]
        exact ⟨p, hpm, hp⟩
      constructor
      · unfold add_meeting_participant
        dsimp only
        rw [hany, Bool.true_or, if_pos rfl, hfind]
      · unfold resolve_token
        have hsome : ∃ q, st.meeting_participants.find? (fun q =>
            q.token == p.token) = some q := by
          rw [← Option.isSome_iff_exists, List.find?_isSome]
          exact ⟨p, hpm, by simp⟩
        obtain ⟨q, hq⟩ := hsome
        have hqm := List.mem_of_find?_eq_some hq
        have hqt : q.token = p.token := by
          simpa using List.find?_some hq
        have hqp : q = p := List.inj_on_of_nodup_map htok hqm hpm hqt
        rw [hq, hqp]
        simp [hpair.1, hpair.2]
    · rw [hst, ht]
      have hfnone : st.meeting_participants.find? (fun p =>
          p.meeting_id == m && p.contact_id == c) = none := by
        rw [List.find?_eq_none]
        intro x hx
        simpa using List.any_eq_false.mp hpk x hx
      have hfnone2 : st.meeting_participants.find? (fun p =>
          p.token == make_token m c e1.now) = none := by
        rw [List.find?_eq_none]
        intro x hx
        simpa using List.any_eq_false.mp htk x hx
      constructor
      · unfold add_meeting_participant
        dsimp only
        have hany2 : ((st.meeting_participants ++
            [({ meeting_id := m, contact_id := c,
                token := make_token m c e1.now, responded := false,
                responded_at := none } : ParticipantRow)]).any (fun p =>
            p.meeting_id == m && p.contact_id == c)) = true := by
          rw [List.any_append]
          simp
        have hfrow : List.find? (fun p =>
            p.meeting_id == m && p.contact_id == c)
            [({ meeting_id := m, contact_id := c,
                token := make_token m c e1.now, responded := false,
                responded_at := none } : ParticipantRow)] =
            some ({ meeting_id := m, contact_id := c,
                    token := make_token m c e1.now, responded := false,
                    responded_at := none } : ParticipantRow) := by
          simp [List.find?_cons]
        rw [hany2, Bool.true_or, if_pos rfl, List.find?_append, hfnone,
          Option.none_or, hfrow]
      · unfold resolve_token
        dsimp only
        have hfrow2 : List.find? (fun p =>
            p.token == make_token m c e1.now)
            [({ meeting_id := m, contact_id := c,
                token := make_token m c e1.now, responded := false,
                responded_at := none } : ParticipantRow)] =
            some ({ meeting_id := m, contact_id := c,
                    token := make_token m c e1.now, responded := false,
                    responded_at := none } : ParticipantRow) := by
          simp [List.find?_cons]
        rw [List.find?_append, hfnone2, Option.none_or, hfrow2,
          Option.map_some']
  exact ⟨hmain.1, hmain.2, fun l st2 hrun =>
    runOps_preserves_resolve l st1 st2 t1 (m, c) hrun hmain.2⟩

/-- C4 witness: issue for ("m1", "c1") from the empty database, then
re-issue under a later clock: the same token comes back, resolving to the
pair, stably. -/
theorem issue_token_idempotent_stable_witness :
    add_meeting_participant envC dbAfterIssue "m1" "c1" =
      .ok (dbAfterIssue, make_token "m1" "c1" "2025-01-01T00:00:00") ∧
    resolve_token dbAfterIssue
      (make_token "m1" "c1" "2025-01-01T00:00:00") = some ("m1", "c1") ∧
    (∀ (l : List (Env × Op)) (st2 : DB),
      runOps l dbAfterIssue = some st2 →
      resolve_token st2 (make_token "m1" "c1" "2025-01-01T00:00:00") =
        some ("m1", "c1")) :=
  issue_token_idempotent_stable envA envC emptyDB dbAfterIssue "m1" "c1"
    (make_token "m1" "c1" "2025-01-01T00:00:00") (by decide) rfl

/-! ### The SQLite TEXT order is a linear order -/

theorem strLtB_asymm : ∀ x y : List Char,
    strLtB x y = true → strLtB y x = false := by
  intro x
  induction x with
  | nil =>
    intro y h
    cases y with
    | nil => simp [strLtB] at h
    | cons b bs => rfl
  | cons a as ih =>
    intro y h
    cases y with
    | nil => simp [strLtB] at h
    | cons b bs =>
      simp only [strLtB] at h ⊢
      by_cases h1 : a.toNat < b.toNat
      · rw [if_neg (by omega), if_pos h1]
      · by_cases h2 : b.toNat < a.toNat
        · rw [if_neg h1, if_pos h2] at h
          exact absurd h (by simp)
        · rw [if_neg h1, if_neg h2] at h
          rw [if_neg h2, if_neg h1]
          exact ih bs h

theorem strLtB_trans : ∀ x y z : List Char,
    strLtB x y = true → strLtB y z = true → strLtB x z = true := by
  intro x
  induction x with
  | nil =>
    intro y z hxy hyz
    cases y with
    | nil => simp [strLtB] at hxy
    | cons b bs =>
      cases z with
      | nil => simp [strLtB] at hyz
      | cons c cs => rfl
  | cons a as ih =>
    intro y z hxy hyz
    cases y with
    | nil => simp [strLtB] at hxy
    | cons b bs =>
      cases z with
      | nil => simp [strLtB] at hyz
      | cons c cs =>
        simp only [strLtB] at hxy hyz ⊢
        by_cases hab : a.toNat < b.toNat
        · by_cases hbc : b.toNat < c.toNat
          · rw [if_pos (show a.toNat < c.toNat by omega)]
          · by_cases hcb : c.toNat < b.toNat
            · rw [if_neg hbc, if_pos hcb] at hyz
              exact absurd hyz (by simp)
            · rw [if_pos (show a.toNat < c.toNat by omega)]
        · by_cases hba : b.toNat < a.toNat
          · rw [if_neg hab, if_pos hba] at hxy
            exact absurd hxy (by simp)
          · rw [if_neg hab, if_neg hba] at hxy
            by_cases hbc : b.toNat < c.toNat
            · rw [if_pos (by omega)]
            · by_cases hcb : c.toNat < b.toNat
              · rw [if_neg hbc, if_pos hcb] at hyz
                exact absurd hyz (by simp)
              · rw [if_neg hbc, if_neg hcb] at hyz
                rw [if_neg (by omega), if_neg (by omega)]
                exact ih bs cs hxy hyz

theorem strLtB_conn : ∀ x y : List Char,
    strLtB x y = false → strLtB y x = false → x = y := by
  intro x
  induction x with
  | nil =>
    intro y h1 _
    cases y with
    | nil => rfl
    | cons b bs => simp [strLtB] at h1
  | cons a as ih =>
    intro y h1 h2
    cases y with
    | nil => simp [strLtB] at h2
    | cons b bs =>
      simp only [strLtB] at h1 h2
      by_cases hab : a.toNat < b.toNat
      · rw [if_pos hab] at h1
        exact absurd h1 (by simp)
      · by_cases hba : b.toNat < a.toNat
        · rw [if_pos hba] at h2
          exact absurd h2 (by simp)
        · rw [if_neg hab, if_neg hba] at h1
          rw [if_neg hba, if_neg hab] at h2
          have hchar : a = b := by
            have hnat : a.toNat = b.toNat := by omega
            have := congrArg Char.ofNat hnat
            rwa [Char.ofNat_toNat, Char.ofNat_toNat] at this
          rw [hchar, ih bs h1 h2]

theorem strLeB_total (a b : String) :
    strLeB a b = true ∨ strLeB b a = true := by
  unfold strLeB
  by_cases h : strLtB b.data a.data = true
  · exact Or.inr (by rw [strLtB_asymm b.data a.data h]; rfl)
  · exact Or.inl (by rw [Bool.not_eq_true] at h; rw [h]; rfl)

theorem strLeB_trans (a b c : String) (hab : strLeB a b = true)
    (hbc : strLeB b c = true) : strLeB a c = true := by
  unfold strLeB at hab hbc ⊢
  rw [Bool.not_eq_eq_eq_not, Bool.not_true] at hab hbc ⊢
  by_cases hca : strLtB c.data a.data = true
  · exfalso
    by_cases h1 : strLtB a.data b.data = true
    · rw [strLtB_trans c.data a.data b.data hca h1] at hbc
      simp at hbc
    · rw [Bool.not_eq_true] at h1
      have : a.data = b.data := strLtB_conn a.data b.data h1 hab
      rw [← this] at hbc
      rw [hca] at hbc
      simp at hbc
  · rwa [Bool.not_eq_true] at hca

/-! ### Sortedness of the embedded `ORDER BY` sort -/

theorem pairwise_orderedInsertBy {α : Type} (le : α → α → Bool)
    (htot : ∀ a b, le a b = true ∨ le b a = true)
    (htrans : ∀ a b c, le a b = true → le b c = true → le a c = true)
    (x : α) (l : List α) (h : l.Pairwise (fun a b => le a b = true)) :
    (orderedInsertBy le x l).Pairwise (fun a b => le a b = true) := by
  induction l with
  | nil => simp [orderedInsertBy]
  | cons y ys ih =>
    rw [List.pairwise_cons] at h
    by_cases hxy : le x y = true
    · rw [orderedInsertBy, if_pos hxy]
      refine List.Pairwise.cons ?_ (List.Pairwise.cons h.1 h.2)
      intro z hz
      rcases List.mem_cons.mp hz with rfl | hz2
      · exact hxy
      · exact htrans x y z hxy (h.1 z hz2)
    · rw [orderedInsertBy, if_neg hxy]
      refine List.Pairwise.cons ?_ (ih h.2)
      intro z hz
      rcases (mem_orderedInsertBy le x ys z).mp hz with hzx | hz2
      · rcases htot x y with hx | hy
        · exact absurd hx hxy
        · rw [hzx]
          exact hy
      · exact h.1 z hz2

theorem pairwise_insertionSortBy {α : Type} (le : α → α → Bool)
    (htot : ∀ a b, le a b = true ∨ le b a = true)
    (htrans : ∀ a b c, le a b = true → le b c = true → le a c = true)
    (l : List α) :
    (insertionSortBy le l).Pairwise (fun a b => le a b = true) := by
  induction l with
  | nil => exact List.Pairwise.nil
  | cons x xs ih =>
    exact pairwise_orderedInsertBy le htot htrans x _ ih

/-! ### Stability of the descending score sort -/

theorem mem_insertDesc (x : SlotScore) (l : List SlotScore) (z : SlotScore) :
    z ∈ insertDesc x l ↔ z = x ∨ z ∈ l := by
  induction l with
  | nil => simp [insertDesc]
  | cons y ys ih =>
    by_cases h : y.score < x.score
    · simp [insertDesc, h]
    · simp only [insertDesc, h, if_false, List.mem_cons, ih]
      tauto

theorem pairwise_insertDesc (x : SlotScore) (l : List SlotScore)
    (h1 : l.Pairwise scoreDescTieByStart)
    (h2 : ∀ a ∈ l, strLeB a.slot_datetime x.slot_datetime = true) :
    (insertDesc x l).Pairwise scoreDescTieByStart := by
  induction l with
  | nil => simp [insertDesc, List.pairwise_singleton]
  | cons y ys ih =>
    rw [List.pairwise_cons] at h1
    by_cases hlt : y.score < x.score
    · rw [insertDesc, if_pos hlt]
      refine List.Pairwise.cons ?_ (List.Pairwise.cons h1.1 h1.2)
      intro z hz
      rcases List.mem_cons.mp hz with rfl | hz2
      · exact ⟨le_of_lt hlt, fun heq => absurd (heq ▸ hlt) (lt_irrefl _)⟩
      · have hyz := h1.1 z hz2
        have hzy : z.score ≤ y.score := hyz.1
        refine ⟨le_of_lt (lt_of_le_of_lt hzy hlt), fun heq => ?_⟩
        exact absurd (heq ▸ lt_of_le_of_lt hzy hlt) (lt_irrefl _)
    · rw [insertDesc, if_neg hlt]
      refine List.Pairwise.cons ?_ (ih h1.2 (fun a ha => h2 a
        (List.mem_cons_of_mem y ha)))
      intro z hz
      rcases (mem_insertDesc x ys z).mp hz with rfl | hz2
      · exact ⟨not_lt.mp hlt, fun _ => h2 y (List.mem_cons_self y ys)⟩
      · exact h1.1 z hz2

theorem pairwise_sortScoresDesc_aux :
    ∀ (l acc : List SlotScore),
    acc.Pairwise scoreDescTieByStart →
    (∀ a ∈ acc, ∀ b ∈ l, strLeB a.slot_datetime b.slot_datetime = true) →
    l.Pairwise (fun a b => strLeB a.slot_datetime b.slot_datetime = true) →
    (l.foldl (fun acc x => insertDesc x acc) acc).Pairwise
      scoreDescTieByStart := by
  intro l
  induction l with
  | nil =>
    intro acc hacc _ _
    exact hacc
  | cons x rest ih =>
    intro acc hacc hcross hl
    rw [List.pairwise_cons] at hl
    refine ih (insertDesc x acc) ?_ ?_ hl.2
    · exact pairwise_insertDesc x acc hacc
        (fun a ha => hcross a ha x (List.mem_cons_self x rest))
    · intro a ha b hb
      rcases (mem_insertDesc x acc a).mp ha with rfl | ha2
      · exact hl.1 b hb
      · exact hcross a ha2 b (List.mem_cons_of_mem x hb)

theorem mem_sortScoresDesc_aux :
    ∀ (l acc : List SlotScore) (z : SlotScore),
    (z ∈ l.foldl (fun acc x => insertDesc x acc) acc ↔ z ∈ acc ∨ z ∈ l) := by
  intro l
  induction l with
  | nil => simp
  | cons x rest ih =>
    intro acc z
    rw [List.foldl_cons, ih (insertDesc x acc) z, mem_insertDesc]
    simp only [List.mem_cons]
    tauto

theorem mem_sortScoresDesc (l : List SlotScore) (z : SlotScore) :
    z ∈ sortScoresDesc l ↔ z ∈ l := by
  rw [sortScoresDesc, mem_sortScoresDesc_aux]
  simp

/-! ### C3: slot ranking — score descending, ties by earlier start -/

/-- C3.  The ranked slot list scores every slot of the meeting as
`available + 0.5 * maybe` over the responses bound to it, is ordered by
score descending with every score tie broken by slot start ascending (the
earlier-starting slot first); on the concrete fixture, the slot with 2
available + 1 maybe (score 5/2) ranks before the slot with 2 available
(score 2), and the two tied slots keep earlier-start-first order. -/
theorem rank_slots_spec (st : DB) (mid : String) :
    (rank_slots st mid).Pairwise scoreDescTieByStart ∧
    (∀ e ∈ rank_slots st mid,
      e.available = count_avail st mid e.slot_id ∧
      e.maybe = count_maybe st mid e.slot_id ∧
      e.score = (count_avail st mid e.slot_id : ℚ) +
        (count_maybe st mid e.slot_id : ℚ) * (1 / 2)) ∧
    (rank_slots dbScoring "m4").map (fun e =>
      (e.slot_id, e.available, e.maybe, e.score.num, e.score.den)) =
      [("sA", 2, 1, 5, 2), ("sB", 2, 0, 2, 1),
       ("sC", 1, 0, 1, 1), ("sD", 1, 0, 1, 1)] := by
  refine ⟨?_, ?_, by decide⟩
  · have hslots : (get_meeting_slots st mid).Pairwise
        (fun a b => slotLeB a b = true) :=
      pairwise_insertionSortBy slotLeB
        (fun a b => strLeB_total a.slot_datetime b.slot_datetime)
        (fun a b c => strLeB_trans a.slot_datetime b.slot_datetime
          c.slot_datetime) _
    have hdt : (slot_scores_of st mid).Pairwise
        (fun a b => strLeB a.slot_datetime b.slot_datetime = true) := by
      unfold slot_scores_of
      dsimp only
      rw [List.pairwise_map]
      exact hslots
    unfold rank_slots sortScoresDesc
    exact pairwise_sortScoresDesc_aux _ [] List.Pairwise.nil
      (by intro a ha; simp at ha) hdt
  · intro e he
    unfold rank_slots at he
    rw [mem_sortScoresDesc] at he
    unfold slot_scores_of at he
    dsimp only at he
    rw [List.mem_map] at he
    obtain ⟨s, hs, rfl⟩ := he
    refine ⟨rfl, rfl, ?_⟩
    show mkRat (2 * count_avail st mid s.id + count_maybe st mid s.id) 2 =
      (count_avail st mid s.id : ℚ) + (count_maybe st mid s.id : ℚ) * (1 / 2)
    generalize count_avail st mid s.id = a
    generalize count_maybe st mid s.id = m
    rw [Rat.mkRat_eq_div]
    push_cast
    ring

/-- C3 witness: the ranking order property at the concrete scoring
fixture. -/
theorem rank_slots_spec_witness :
    (rank_slots dbScoring "m4").Pairwise scoreDescTieByStart :=
  (rank_slots_spec dbScoring "m4").1

end Scheduler

